import Mathlib

/-!
# Rainbow rendering core: sprites, texture atlas, texture manager

A shallow embedding of `src/Graphics/Sprite.cpp`, `src/Graphics/TextureAtlas.cpp`,
`src/TextureAtlas.cpp`, `src/Graphics/TextureManager.cpp`, `src/Graphics/Renderer.cpp`
and the attribute loops of `src/Graphics/LyricalLabel.cpp`.

Conventions of the embedding

* `float` and `double` values are rationals and float arithmetic is exact
  (every finite float is a rational; rounding is not modelled).
* `cosf` and `sinf` are parameters of the functions that call them.
* `unsigned int` values are naturals; where the source multiplies or shifts
  them the result is reduced modulo `2 ^ 32`.
* `R_ASSERT` / `assert` follow the debug build: a failed assertion aborts, which
  the embedding renders as `none`.
* Calls into OpenGL are appended to a log kept next to the C++ fields; what the
  backend answers (`glGenTextures`, `glGetError`) is an argument of the call.
-/

namespace Rainbow

/-! ## Vec2f -/

/-- Modelled from the spec: the two-component float vector `Vec2f` (`Common/Vec2.h`
is not among the sources). -/
structure Vec2f where
  x : ℚ
  y : ℚ
deriving DecidableEq

namespace Vec2f

/-- Modelled from the spec: `Vec2f::operator+=`, the sum component by component. -/
def add (a b : Vec2f) : Vec2f := ⟨a.x + b.x, a.y + b.y⟩

/-- Modelled from the spec: `Vec2f::operator-=`, the difference component by
component. -/
def sub (a b : Vec2f) : Vec2f := ⟨a.x - b.x, a.y - b.y⟩

/-- Modelled from the spec: `Vec2f::is_zero` (`Common/Vec2.h` is not among the
sources); both components are exactly zero. -/
def is_zero (a : Vec2f) : Bool := a.x == 0 && a.y == 0

end Vec2f

/-- Modelled from the spec: `Rainbow::equal(a, b)` (`Algorithm.h` is not among the
sources). The spec calls the test against `0.0f` an exact-zero test; the
embedding compares exactly. -/
def equal (a b : ℚ) : Bool := a == b

/-! ## Sprite -/

/-- Bit 0 of `stale_`: the vertex buffer must be recomputed. -/
def kStaleBuffer : Nat := 1 <<< 0

/-- Bit 1 of `stale_`: the position changed. -/
def kStalePosition : Nat := 1 <<< 1

/-- The anonymous-namespace helper `transform_rst`. -/
def transform_rst (p s_sin_r s_cos_r center : Vec2f) : Vec2f :=
  ⟨s_cos_r.x * p.x - s_sin_r.x * p.y + center.x,
   s_sin_r.y * p.x + s_cos_r.y * p.y + center.y⟩

/-- The anonymous-namespace helper `transform_st`. -/
def transform_st (p scale center : Vec2f) : Vec2f :=
  ⟨scale.x * p.x + center.x, scale.y * p.y + center.y⟩

/-- Modelled from the spec: the record `SpriteVertex` (`Graphics/SpriteVertex.h` is
not among the sources): colour, texture coordinate and position of one corner. -/
structure SpriteVertex where
  color : Nat
  texcoord : Vec2f
  position : Vec2f
deriving DecidableEq

/-- The four vertices `vertex_array_[0..3]` a sprite writes to: its slice of the
batch buffer. -/
structure VertexArray where
  v0 : SpriteVertex
  v1 : SpriteVertex
  v2 : SpriteVertex
  v3 : SpriteVertex
deriving DecidableEq

/-- The fields of `Sprite` as the constructors of `Sprite.cpp` initialise them
(`parent_` is left out). The slice `vertex_array_` points to is held by value. -/
structure Sprite where
  angle_ : ℚ
  width_ : Nat
  height_ : Nat
  stale_ : Nat
  vertex_array_ : VertexArray
  center_ : Vec2f
  pivot_ : Vec2f
  position_ : Vec2f
  scale_ : Vec2f
deriving DecidableEq

namespace Sprite

/-- The constructor `Sprite::Sprite(w, h, p)`. `stale_(-1)` sets every bit of
the unsigned field. `center_` and `position_` are default-constructed; `dflt`
is the value `Vec2f()` has, `va` the slice the batch hands the sprite. -/
def new (w h : Nat) (va : VertexArray) (dflt : Vec2f) : Sprite :=
  { angle_ := 0, width_ := w, height_ := h, stale_ := 2 ^ 32 - 1,
    vertex_array_ := va, center_ := dflt, pivot_ := ⟨1 / 2, 1 / 2⟩,
    position_ := dflt, scale_ := ⟨1, 1⟩ }

/-- The method `Sprite::set_pivot`; `none` when the assertion on the pivot fails. -/
def set_pivot (s : Sprite) (pivot : Vec2f) : Option Sprite :=
  if pivot.x ≥ 0 ∧ pivot.x ≤ 1 ∧ pivot.y ≥ 0 ∧ pivot.y ≤ 1 then
    let diff := pivot.sub s.pivot_
    if diff.is_zero then some s
    else
      let diff : Vec2f := ⟨diff.x * ((s.width_ : ℚ) * s.scale_.x),
                           diff.y * ((s.height_ : ℚ) * s.scale_.y)⟩
      some { s with center_ := s.center_.add diff,
                    position_ := s.position_.add diff,
                    pivot_ := pivot }
  else none

/-- The method `Sprite::set_position`. -/
def set_position (s : Sprite) (position : Vec2f) : Sprite :=
  { s with position_ := position, stale_ := s.stale_ ||| kStalePosition }

/-- The method `Sprite::set_rotation`. -/
def set_rotation (s : Sprite) (r : ℚ) : Sprite :=
  { s with angle_ := r, stale_ := s.stale_ ||| kStaleBuffer }

/-- The method `Sprite::set_scale(const float)`; `none` when the assertion fails. -/
def set_scale (s : Sprite) (f : ℚ) : Option Sprite :=
  if f > 0 then
    some { s with scale_ := ⟨f, f⟩, stale_ := s.stale_ ||| kStaleBuffer }
  else none

/-- The method `Sprite::set_scale(const Vec2f &)`; `none` when the assertion fails. -/
def set_scale_vec (s : Sprite) (f : Vec2f) : Option Sprite :=
  if f.x > 0 ∧ f.y > 0 then
    some { s with scale_ := f, stale_ := s.stale_ ||| kStaleBuffer }
  else none

/-- The method `Sprite::set_color`. -/
def set_color (s : Sprite) (c : Nat) : Sprite :=
  let va := s.vertex_array_
  { s with vertex_array_ :=
      { v0 := { va.v0 with color := c },
        v1 := { va.v1 with color := c },
        v2 := { va.v2 with color := c },
        v3 := { va.v3 with color := c } } }

/-- The method `Sprite::move`. -/
def move (s : Sprite) (delta : Vec2f) : Sprite :=
  if delta.is_zero then s
  else { s with position_ := s.position_.add delta, stale_ := s.stale_ ||| kStalePosition }

/-- The method `Sprite::mirror`: two `std::swap`s of texture coordinates. -/
def mirror (s : Sprite) : Sprite :=
  let va := s.vertex_array_
  { s with vertex_array_ :=
      { v0 := { va.v0 with texcoord := va.v1.texcoord },
        v1 := { va.v1 with texcoord := va.v0.texcoord },
        v2 := { va.v2 with texcoord := va.v3.texcoord },
        v3 := { va.v3 with texcoord := va.v2.texcoord } } }

/-- The method `Sprite::rotate`. -/
def rotate (s : Sprite) (r : ℚ) : Sprite :=
  if equal r 0 then s
  else { s with angle_ := s.angle_ + r, stale_ := s.stale_ ||| kStaleBuffer }

section update
variable (cosf sinf : ℚ → ℚ)

/-- The branch of `Sprite::update` taken when `stale_ & kStaleBuffer`: the full
recomputation of the four positions. -/
def update_buffer (s : Sprite) : Sprite :=
  let center : Vec2f :=
    if s.stale_ &&& kStalePosition ≠ 0 then s.position_ else s.center_
  let o0 : Vec2f := ⟨(s.width_ : ℚ) * -s.pivot_.x, (s.height_ : ℚ) * -(1 - s.pivot_.y)⟩
  let o1 : Vec2f := ⟨o0.x + s.width_, o0.y⟩
  let o2 : Vec2f := ⟨o1.x, o1.y + s.height_⟩
  let o3 : Vec2f := ⟨o0.x, o2.y⟩
  let va := s.vertex_array_
  if ¬ equal s.angle_ 0 then
    let cos_r := cosf (-s.angle_)
    let sin_r := sinf (-s.angle_)
    let s_sin_r : Vec2f := ⟨s.scale_.x * sin_r, s.scale_.y * sin_r⟩
    let s_cos_r : Vec2f := ⟨s.scale_.x * cos_r, s.scale_.y * cos_r⟩
    { s with
        center_ := center
        vertex_array_ :=
          { v0 := { va.v0 with position := transform_rst o0 s_sin_r s_cos_r center },
            v1 := { va.v1 with position := transform_rst o1 s_sin_r s_cos_r center },
            v2 := { va.v2 with position := transform_rst o2 s_sin_r s_cos_r center },
            v3 := { va.v3 with position := transform_rst o3 s_sin_r s_cos_r center } }
        stale_ := 0 }
  else
    { s with
        center_ := center
        vertex_array_ :=
          { v0 := { va.v0 with position := transform_st o0 s.scale_ center },
            v1 := { va.v1 with position := transform_st o1 s.scale_ center },
            v2 := { va.v2 with position := transform_st o2 s.scale_ center },
            v3 := { va.v3 with position := transform_st o3 s.scale_ center } }
        stale_ := 0 }

/-- The `else` branch of `Sprite::update`: the four positions are moved by the
difference between `position_` and `center_`. -/
def update_position (s : Sprite) : Sprite :=
  let position := s.position_.sub s.center_
  let va := s.vertex_array_
  let center := s.center_.add position
  { s with
      vertex_array_ :=
        { v0 := { va.v0 with position := va.v0.position.add position },
          v1 := { va.v1 with position := va.v1.position.add position },
          v2 := { va.v2 with position := va.v2.position.add position },
          v3 := { va.v3 with position := va.v3.position.add position } }
      center_ := center
      position_ := center
      stale_ := 0 }

/-- The method `Sprite::update`. -/
def update (s : Sprite) : Sprite :=
  if s.stale_ = 0 then s
  else if s.stale_ &&& kStaleBuffer ≠ 0 then update_buffer cosf sinf s
  else update_position s

end update

/-- The positions of the four vertices of the slice, in vertex order. -/
def positions (s : Sprite) : Vec2f × Vec2f × Vec2f × Vec2f :=
  (s.vertex_array_.v0.position, s.vertex_array_.v1.position,
   s.vertex_array_.v2.position, s.vertex_array_.v3.position)

/-- The texture coordinates of the four vertices of the slice, in vertex order. -/
def texcoords (s : Sprite) : Vec2f × Vec2f × Vec2f × Vec2f :=
  (s.vertex_array_.v0.texcoord, s.vertex_array_.v1.texcoord,
   s.vertex_array_.v2.texcoord, s.vertex_array_.v3.texcoord)

end Sprite

/-! ### Notions used to state and prove the sprite theorems -/

namespace Sprite

/-- Same dimensions, pivot, scale and angle. -/
def SamePose (s t : Sprite) : Prop :=
  s.angle_ = t.angle_ ∧ s.width_ = t.width_ ∧ s.height_ = t.height_ ∧
    s.pivot_ = t.pivot_ ∧ s.scale_ = t.scale_

/-- The four positions the full-recompute branch writes for the pose of `s`
around the centre `c`. -/
def quad (cosf sinf : ℚ → ℚ) (s : Sprite) (c : Vec2f) : Vec2f × Vec2f × Vec2f × Vec2f :=
  (update_buffer cosf sinf { s with stale_ := kStaleBuffer, center_ := c }).positions

/-- The slice of `s` holds what a full recomputation at the current centre writes. -/
def UpToDate (cosf sinf : ℚ → ℚ) (s : Sprite) : Prop :=
  s.stale_ &&& kStaleBuffer ≠ 0 ∨
    ((s.stale_ = 0 ∨ s.stale_ = kStalePosition) ∧ s.positions = quad cosf sinf s s.center_)

/-- Adds `d` to each of four positions. -/
def shift (q : Vec2f × Vec2f × Vec2f × Vec2f) (d : Vec2f) : Vec2f × Vec2f × Vec2f × Vec2f :=
  (q.1.add d, q.2.1.add d, q.2.2.1.add d, q.2.2.2.add d)

/-- The centre a full recomputation uses: the position when it is dirty. -/
def pendingCenter (s : Sprite) : Vec2f :=
  if s.stale_ &&& kStalePosition ≠ 0 then s.position_ else s.center_

end Sprite

/-- A call that moves a sprite or refreshes its slice. -/
inductive PositionOp where
  | set_position (p : Vec2f)
  | update
deriving DecidableEq

/-- Runs one call. -/
def PositionOp.apply (cosf sinf : ℚ → ℚ) (s : Sprite) : PositionOp → Sprite
  | .set_position p => s.set_position p
  | .update => s.update cosf sinf

/-- Runs a sequence of calls, first to last. -/
def Sprite.run (cosf sinf : ℚ → ℚ) (s : Sprite) (ops : List PositionOp) : Sprite :=
  ops.foldl (PositionOp.apply cosf sinf) s

/-- A slice with every field zero. -/
def VertexArray.zero : VertexArray :=
  ⟨⟨0, ⟨0, 0⟩, ⟨0, 0⟩⟩, ⟨0, ⟨0, 0⟩, ⟨0, 0⟩⟩, ⟨0, ⟨0, 0⟩, ⟨0, 0⟩⟩, ⟨0, ⟨0, 0⟩, ⟨0, 0⟩⟩⟩

/-- Second-order polynomial standing in for `cosf` where a concrete function is needed. -/
def cosPoly (a : ℚ) : ℚ := 1 - a * a / 2

/-- Third-order polynomial standing in for `sinf` where a concrete function is needed. -/
def sinPoly (a : ℚ) : ℚ := a - a * a * a / 6

/-- The value of `(float)M_PI`. -/
def kPi : ℚ := 13176795 / 4194304

/-- A 10x20 sprite at the origin with the constructor's pivot `(0.5,0.5)`, updated once. -/
def sprite10x20 : Sprite :=
  Sprite.update cosPoly sinPoly (Sprite.new 10 20 VertexArray.zero ⟨0, 0⟩)

/-! ## Texture manager -/

/-! The OpenGL enumerants the sources name; `Graphics/OpenGL.h` is not among the
sources and the values are those of the OpenGL headers. -/

/-- The OpenGL enumerant `GL_NO_ERROR`. -/
def GL_NO_ERROR : Nat := 0

/-- The OpenGL enumerant `GL_TEXTURE_2D`. -/
def GL_TEXTURE_2D : Nat := 0x0DE1

/-- The OpenGL enumerant `GL_UNSIGNED_BYTE`. -/
def GL_UNSIGNED_BYTE : Nat := 0x1401

/-- The OpenGL enumerant `GL_RGBA`. -/
def GL_RGBA : Nat := 0x1908

/-- The OpenGL enumerant `GL_LUMINANCE`. -/
def GL_LUMINANCE : Nat := 0x1909

/-- The OpenGL enumerant `GL_NEAREST`. -/
def GL_NEAREST : Nat := 0x2600

/-- The OpenGL enumerant `GL_LINEAR`. -/
def GL_LINEAR : Nat := 0x2601

/-- The OpenGL enumerant `GL_TEXTURE_MAG_FILTER`. -/
def GL_TEXTURE_MAG_FILTER : Nat := 0x2800

/-- The OpenGL enumerant `GL_TEXTURE_MIN_FILTER`. -/
def GL_TEXTURE_MIN_FILTER : Nat := 0x2801

/-- The OpenGL enumerant `GL_TEXTURE_WRAP_S`. -/
def GL_TEXTURE_WRAP_S : Nat := 0x2802

/-- The OpenGL enumerant `GL_TEXTURE_WRAP_T`. -/
def GL_TEXTURE_WRAP_T : Nat := 0x2803

/-- The OpenGL enumerant `GL_CLAMP_TO_EDGE`. -/
def GL_CLAMP_TO_EDGE : Nat := 0x812F

/-- The OpenGL enumerant `GL_TEXTURE0`. -/
def GL_TEXTURE0 : Nat := 0x84C0

/-- One call into OpenGL, with the arguments the sources pass. Pixel data pointers
are left out; `glGenTextures` carries the name the backend wrote. -/
inductive GLCall where
  | glBindTexture (target texture : Nat)
  | glActiveTexture (texture : Nat)
  | glGenTextures (n name : Nat)
  | glTexImage2D (target level internalformat width height border format type : Nat)
  | glCompressedTexImage2D (target level internalformat width height border imageSize : Nat)
  | glTexParameteri (target pname param : Nat)
  | glDeleteTextures (n : Nat) (textures : List Nat)
deriving DecidableEq

/-- Whether the call asks the backend for a fresh texture name. -/
def GLCall.isGenTextures : GLCall → Bool
  | .glGenTextures _ _ => true
  | _ => false

/-- The record `TextureManager::TextureId`: a texture name and its size in texels. -/
structure TextureId where
  id : Nat
  sz : Nat
deriving DecidableEq

/-- Modelled from the spec: `Vector<T>::qerase(i)` (`Common/Vector.h` is not among
the sources). The record at index `i` leaves the vector: the last record takes
its place and the vector shrinks by one. -/
def qerase {α : Type} (v : List α) (i : Nat) : List α :=
  match v.getLast? with
  | none => v
  | some last => v.dropLast.set i last

/-- The fields of `TextureManager` as `TextureManager.cpp` uses them, and the log
`gl` of the OpenGL calls issued so far, oldest first. `active` has one entry per
texture unit. -/
structure TextureManager where
  mag_filter : Nat
  min_filter : Nat
  mem_peak : ℚ
  mem_used : ℚ
  active : List Nat
  textures : List TextureId
  recycled : List TextureId
  gl : List GLCall
deriving DecidableEq

namespace TextureManager

/-- The constructor; `kNumTextureUnits` is the length of `active`. -/
def new (kNumTextureUnits : Nat) : TextureManager :=
  { mag_filter := GL_LINEAR, min_filter := GL_LINEAR, mem_peak := 0, mem_used := 0,
    active := List.replicate kNumTextureUnits 0, textures := [], recycled := [], gl := [] }

/-- The method `TextureManager::bind(id)`. The call `bind()` in `remove` has no
argument; the default declared in `Graphics/TextureManager.h`, which is not among
the sources, is taken to be `0`, the name that unbinds. -/
def bind (tm : TextureManager) (id : Nat) : TextureManager :=
  if id = tm.active.getD 0 0 then tm
  else { tm with gl := tm.gl ++ [GLCall.glBindTexture GL_TEXTURE_2D id],
                 active := tm.active.set 0 id }

/-- The method `TextureManager::bind(id, unit)`; `none` when the unit is invalid. -/
def bind_unit (tm : TextureManager) (id unit : Nat) : Option TextureManager :=
  if unit < tm.active.length then
    if id = tm.active.getD unit 0 then some tm
    else some { tm with gl := tm.gl ++ [GLCall.glActiveTexture (GL_TEXTURE0 + unit),
                                        GLCall.glBindTexture GL_TEXTURE_2D id,
                                        GLCall.glActiveTexture GL_TEXTURE0],
                        active := tm.active.set unit id }
  else none

/-- The method `TextureManager::create_texture`. `gen` is the name `glGenTextures`
writes when it is called. -/
def create_texture (tm : TextureManager) (gen : Nat) (size : Nat) :
    TextureId × TextureManager :=
  let texture : TextureId := { id := 0, sz := size }
  let r : TextureId × TextureManager :=
    match tm.recycled with
    | [] => ({ texture with id := gen }, { tm with gl := tm.gl ++ [GLCall.glGenTextures 1 gen] })
    | r0 :: _ => ({ texture with id := r0.id }, { tm with recycled := qerase tm.recycled 0 })
  let texture := r.1
  let tm := r.2
  let tm := { tm with mem_used := tm.mem_used + texture.sz }
  let tm := { tm with mem_peak := if tm.mem_used > tm.mem_peak then tm.mem_used else tm.mem_peak }
  let tm := tm.bind texture.id
  let tm := { tm with gl := tm.gl ++
    [GLCall.glTexParameteri GL_TEXTURE_2D GL_TEXTURE_MIN_FILTER tm.min_filter,
     GLCall.glTexParameteri GL_TEXTURE_2D GL_TEXTURE_MAG_FILTER tm.mag_filter,
     GLCall.glTexParameteri GL_TEXTURE_2D GL_TEXTURE_WRAP_S GL_CLAMP_TO_EDGE,
     GLCall.glTexParameteri GL_TEXTURE_2D GL_TEXTURE_WRAP_T GL_CLAMP_TO_EDGE] }
  (texture, tm)

/-- The method `TextureManager::create`. `glError` is what `glGetError` answers
after the upload; `none` when the assertion on it fails. -/
def create (tm : TextureManager) (gen glError : Nat)
    (internal_format width height format : Nat) : Option (Nat × TextureManager) :=
  let r := tm.create_texture gen (width * height % 2 ^ 32)
  let texture := r.1
  let tm := r.2
  let tm := { tm with gl := tm.gl ++
    [GLCall.glTexImage2D GL_TEXTURE_2D 0 internal_format width height 0 format GL_UNSIGNED_BYTE] }
  if glError = GL_NO_ERROR then
    some (texture.id, { tm with textures := tm.textures ++ [texture] })
  else none

/-- The method `TextureManager::create_compressed`. -/
def create_compressed (tm : TextureManager) (gen glError : Nat)
    (format width height size : Nat) : Option (Nat × TextureManager) :=
  let r := tm.create_texture gen ((width * height % 2 ^ 32) >>> 1)
  let texture := r.1
  let tm := r.2
  let tm := { tm with gl := tm.gl ++
    [GLCall.glCompressedTexImage2D GL_TEXTURE_2D 0 format width height 0 size] }
  if glError = GL_NO_ERROR then
    some (texture.id, { tm with textures := tm.textures ++ [texture] })
  else none

/-- The method `TextureManager::memory_usage`: `(used, unused, peak)`. -/
def memory_usage (tm : TextureManager) : ℚ × ℚ × ℚ :=
  let unused : ℚ := ((tm.recycled.length * 64 * 64 : Nat) : ℚ) * (1 / 1000000)
  let used : ℚ := tm.mem_used * (4 / 1000000) + unused
  let peak : ℚ := tm.mem_peak * (4 / 1000000)
  (used, unused, peak)

/-- The method `TextureManager::remove`: the loop stops at the first record whose
name is `id`. -/
def remove (tm : TextureManager) (id : Nat) : TextureManager :=
  let i := tm.textures.findIdx (fun t => t.id == id)
  if h : i < tm.textures.length then
    let t := tm.textures.get ⟨i, h⟩
    let tm := tm.bind t.id
    let tm := { tm with gl := tm.gl ++
      [GLCall.glTexImage2D GL_TEXTURE_2D 0 GL_LUMINANCE 64 64 0 GL_LUMINANCE GL_UNSIGNED_BYTE] }
    let tm := tm.bind 0
    { tm with recycled := tm.recycled ++ [t],
              mem_used := tm.mem_used - t.sz,
              textures := qerase tm.textures i }
  else tm

/-- The method `TextureManager::set_filter`; `none` when the assertion fails. -/
def set_filter (tm : TextureManager) (filter : Nat) : Option TextureManager :=
  if filter = GL_NEAREST ∨ filter = GL_LINEAR then
    some { tm with mag_filter := filter, min_filter := filter }
  else none

/-- The names held by the manager: the active list, then the recycled list. -/
def ids (tm : TextureManager) : List Nat :=
  tm.textures.map (fun t => t.id) ++ tm.recycled.map (fun t => t.id)

end TextureManager

/-- A call on the texture manager, with what the backend answers during it. -/
inductive TMCall where
  | create (gen glError internal_format width height format : Nat)
  | create_compressed (gen glError format width height size : Nat)
  | remove (id : Nat)
deriving DecidableEq

/-- Runs one call; `none` when an assertion fails. -/
def TMCall.apply (tm : TextureManager) : TMCall → Option TextureManager
  | .create gen glError internal_format width height format =>
      (tm.create gen glError internal_format width height format).map (fun r => r.2)
  | .create_compressed gen glError format width height size =>
      (tm.create_compressed gen glError format width height size).map (fun r => r.2)
  | .remove id => some (tm.remove id)

/-- The name the backend writes during the call, when the call reaches
`glGenTextures`. -/
def TMCall.generated (tm : TextureManager) : TMCall → Option Nat
  | .create gen _ _ _ _ _ => if tm.recycled.length = 0 then some gen else none
  | .create_compressed gen _ _ _ _ _ => if tm.recycled.length = 0 then some gen else none
  | .remove _ => none

/-- The states a texture manager with `k` texture units reaches by `create`,
`create_compressed` and `remove`. -/
inductive Reachable (k : Nat) : TextureManager → Prop where
  | init : Reachable k (TextureManager.new k)
  | step {tm tm2 : TextureManager} (c : TMCall) :
      Reachable k tm → c.apply tm = some tm2 → Reachable k tm2

/-- The reachable states when the backend never generates a name the manager holds. -/
inductive ReachableFresh (k : Nat) : TextureManager → Prop where
  | init : ReachableFresh k (TextureManager.new k)
  | step {tm tm2 : TextureManager} (c : TMCall) :
      ReachableFresh k tm → (∀ g, c.generated tm = some g → g ∉ tm.ids) →
      c.apply tm = some tm2 → ReachableFresh k tm2

/-- Runs a sequence of calls, first to last; `none` when an assertion fails. -/
def TMCall.run : TextureManager → List TMCall → Option TextureManager
  | tm, [] => some tm
  | tm, c :: cs => (c.apply tm).bind (fun tm2 => TMCall.run tm2 cs)

/-- A manager with two texture units after two textures were created and removed:
names 1 and 2 wait in the recycled list. -/
def twoRecycled : Option TextureManager :=
  TMCall.run (TextureManager.new 2)
    [.create 1 GL_NO_ERROR GL_RGBA 64 64 GL_RGBA, .create 2 GL_NO_ERROR GL_RGBA 64 64 GL_RGBA,
     .remove 1, .remove 2]

/-- The sum of the sizes recorded in a list of texture records. -/
def sizes (l : List TextureId) : ℚ := (l.map (fun t => (t.sz : ℚ))).sum

/-- The manager with two texture units after one 64x64 RGBA texture, named 1 by the
backend, was created. -/
def oneTexture : TextureManager :=
  { mag_filter := GL_LINEAR, min_filter := GL_LINEAR, mem_peak := 4096, mem_used := 4096,
    active := [1, 0], textures := [⟨1, 4096⟩], recycled := [],
    gl := [GLCall.glGenTextures 1 1, GLCall.glBindTexture GL_TEXTURE_2D 1,
      GLCall.glTexParameteri GL_TEXTURE_2D GL_TEXTURE_MIN_FILTER GL_LINEAR,
      GLCall.glTexParameteri GL_TEXTURE_2D GL_TEXTURE_MAG_FILTER GL_LINEAR,
      GLCall.glTexParameteri GL_TEXTURE_2D GL_TEXTURE_WRAP_S GL_CLAMP_TO_EDGE,
      GLCall.glTexParameteri GL_TEXTURE_2D GL_TEXTURE_WRAP_T GL_CLAMP_TO_EDGE,
      GLCall.glTexImage2D GL_TEXTURE_2D 0 GL_RGBA 64 64 0 GL_RGBA GL_UNSIGNED_BYTE] }

/-- The manager `oneTexture` after texture 1 was removed. -/
def oneRecycled : TextureManager :=
  { oneTexture with
    mem_used := 0, active := [0, 0], textures := [], recycled := [⟨1, 4096⟩],
    gl := oneTexture.gl ++ [
      GLCall.glTexImage2D GL_TEXTURE_2D 0 GL_LUMINANCE 64 64 0 GL_LUMINANCE GL_UNSIGNED_BYTE,
      GLCall.glBindTexture GL_TEXTURE_2D 0] }

/-! ## Texture atlas -/

/-- The values an `int` holds. -/
def IsInt (z : Int) : Prop := -2147483648 ≤ z ∧ z < 2147483648

/-- The sum of two `int`s. Signed overflow is undefined in the source; the embedding
wraps and the theorems assume the sum is representable. -/
def int_add (a b : Int) : Int := (a + b + 2147483648) % 4294967296 - 2147483648

/-- Modelled from the spec: the record `Texture` (`Graphics/Texture.h` is not among
the sources): the name of the atlas and the normalised rectangle `(x0,y0)-(x1,y1)`. -/
structure Texture where
  atlas : Nat
  x0 : ℚ
  y0 : ℚ
  x1 : ℚ
  y1 : ℚ
deriving DecidableEq

/-- Modelled from the spec: the constructor `Texture(x0, y0, x1, y1)`; it keeps the
rectangle, and the atlas name is assigned by the caller. -/
def Texture.new (x0 y0 x1 y1 : ℚ) : Texture := ⟨0, x0, y0, x1, y1⟩

/-- Modelled from the spec: the fields of `TextureAtlas` that
`Graphics/TextureAtlas.cpp` uses; they are declared in `Graphics/TextureAtlas.h`,
which is not among the sources. `width` and `height` are signed integers, so the
comparisons in `define` compare integers. -/
structure TextureAtlas where
  name : Nat
  width : Int
  height : Int
  textures : List Texture
deriving DecidableEq

/-- The method `TextureAtlas::define`; `none` when the assertion fails. The new
record is pushed and then tagged with the atlas name. -/
def TextureAtlas.define (a : TextureAtlas) (x y w h : Int) : Option (Nat × TextureAtlas) :=
  if x ≥ 0 ∧ int_add x w ≤ a.width ∧ y ≥ 0 ∧ int_add y h ≤ a.height then
    let x0 : ℚ := (x : ℚ) / (a.width : ℚ)
    let x1 : ℚ := (int_add x w : ℚ) / (a.width : ℚ)
    let y0 : ℚ := (y : ℚ) / (a.height : ℚ)
    let y1 : ℚ := (int_add y h : ℚ) / (a.height : ℚ)
    let i := a.textures.length
    some (i, { a with textures :=
      a.textures ++ [{ Texture.new x0 y0 x1 y1 with atlas := a.name }] })
  else none

/-- The method `TextureAtlas::is_valid`. -/
def TextureAtlas.is_valid (i : Nat) : Bool := if i < 64 then false else i % 4 == 0

namespace OnWire

/-- Modelled from the spec: the fields of the earlier `TextureAtlas` of
`src/TextureAtlas.cpp` that `define_texture` uses (its header is not among the
sources): the signed size of its texture and the list of texture coordinates. -/
structure TextureAtlas where
  texture_width : Int
  texture_height : Int
  textures : List Vec2f
deriving DecidableEq

/-- The method `TextureAtlas::define_texture` of `src/TextureAtlas.cpp`; `none` when
the assertion fails. -/
def TextureAtlas.define_texture (a : TextureAtlas) (x y w h : Int) :
    Option (Nat × TextureAtlas) :=
  if x ≥ 0 ∧ int_add x w ≤ a.texture_width ∧ y ≥ 0 ∧ int_add y h ≤ a.texture_height then
    let i := a.textures.length
    let x0 : ℚ := (x : ℚ) / (a.texture_width : ℚ)
    let x1 : ℚ := (int_add x w : ℚ) / (a.texture_width : ℚ)
    let y0 : ℚ := (y : ℚ) / (a.texture_height : ℚ)
    let y1 : ℚ := (int_add y h : ℚ) / (a.texture_height : ℚ)
    some (i, { a with textures := a.textures ++ [⟨x1, y0⟩, ⟨x0, y0⟩, ⟨x1, y1⟩, ⟨x0, y1⟩] })
  else none

end OnWire

/-- A 128x128 atlas without regions whose texture is named 7. -/
def atlas128 : TextureAtlas := ⟨7, 128, 128, []⟩

/-! ### Further sprite notions -/

/-- The method `Sprite::set_texture`. `textures` are the regions of the atlas of the
parent batch, read by `(*parent_->texture)[id]`; `vx` gives the four texture
coordinates `Texture::vx[0..3]` a region stores (their layout is fixed by
`Graphics/Texture.h`, which is not among the sources). `none` when there is no
region `id`. -/
def Sprite.set_texture (vx : Texture → Vec2f × Vec2f × Vec2f × Vec2f)
    (textures : List Texture) (s : Sprite) (id : Nat) : Option Sprite :=
  match textures[id]? with
  | none => none
  | some tx =>
    let va := s.vertex_array_
    some { s with vertex_array_ :=
      { v0 := { va.v0 with texcoord := (vx tx).1 },
        v1 := { va.v1 with texcoord := (vx tx).2.1 },
        v2 := { va.v2 with texcoord := (vx tx).2.2.1 },
        v3 := { va.v3 with texcoord := (vx tx).2.2.2 } } }

/-- The colours of the four vertices of the slice, in vertex order. -/
def Sprite.colors (s : Sprite) : Nat × Nat × Nat × Nat :=
  (s.vertex_array_.v0.color, s.vertex_array_.v1.color,
   s.vertex_array_.v2.color, s.vertex_array_.v3.color)

/-- The z component of the cross product of two plane vectors. -/
def cross (a b : Vec2f) : ℚ := a.x * b.y - a.y * b.x

/-- A rational function of the half-angle tangent that, with `circleSin`, lies on the
unit circle; it stands in for `cosf` where a concrete function is needed. -/
def circleCos (a : ℚ) : ℚ := (1 - a * a) / (1 + a * a)

/-- The companion of `circleCos`, standing in for `sinf`. -/
def circleSin (a : ℚ) : ℚ := 2 * a / (1 + a * a)

/-- A texture-coordinate layout for a region, used where a concrete one is needed:
the corners in the order the earlier `define_texture` pushes them. -/
def cornersOf (t : Texture) : Vec2f × Vec2f × Vec2f × Vec2f :=
  (⟨t.x1, t.y0⟩, ⟨t.x0, t.y0⟩, ⟨t.x1, t.y1⟩, ⟨t.x0, t.y1⟩)

/-! ## Renderer -/

/-- Modelled from the spec: the kinds of scene-graph node `Renderer::draw` tells
apart (`SceneGraph::Node::type`; `Graphics/SceneGraph.h` is not among the sources).
Every kind the `switch` does not name is `other`. -/
inductive NodeType where
  | DrawableNode
  | LabelNode
  | SpriteBatchNode
  | other (tag : Nat)
deriving DecidableEq

/-- Modelled from the spec: a scene-graph node, the record
`{enabled, program, kind, payload}` and its children in stored order. `payload`
names the drawable, label or sprite batch the node points to. -/
inductive Node where
  | mk (enabled : Bool) (program : Int) (type : NodeType) (payload : Nat)
      (children : List Node)

/-- What `Renderer::draw(node)` calls, in order: the constructor and destructor of
the local `ShaderManager::Context`, `ShaderManager::use`, and the three dispatches. -/
inductive RenderCall where
  | context_begin
  | use (program : Int)
  | drawable_draw (drawable : Nat)
  | draw_label (label : Nat)
  | draw_sprite_batch (sprite_batch : Nat)
  | context_end
deriving DecidableEq

/-- The `switch (node.type)` of `Renderer::draw(node)`. -/
def dispatch : NodeType → Nat → List RenderCall
  | .DrawableNode, p => [.drawable_draw p]
  | .LabelNode, p => [.draw_label p]
  | .SpriteBatchNode, p => [.draw_sprite_batch p]
  | .other _, _ => []

mutual
/-- The function `Renderer::draw(const SceneGraph::Node &)`: the calls it makes. -/
def draw : Node → List RenderCall
  | .mk enabled program type payload children =>
    if !enabled then []
    else
      [RenderCall.context_begin] ++ (if program ≥ 0 then [RenderCall.use program] else []) ++
        dispatch type payload ++ draw_children children ++ [RenderCall.context_end]
/-- The loop `for (auto child : node.children) draw(*child)`. -/
def draw_children : List Node → List RenderCall
  | [] => []
  | child :: rest => draw child ++ draw_children rest
end

/-- Whether the call is the construction or destruction of the shader context. -/
def RenderCall.isContext : RenderCall → Bool
  | .context_begin => true
  | .context_end => true
  | _ => false

/-- The program selection and the dispatch of one node, taken by itself. -/
def Node.own : Node → List RenderCall
  | .mk _ program type payload _ =>
    (if program ≥ 0 then [RenderCall.use program] else []) ++ dispatch type payload

mutual
/-- The tree pruned at disabled nodes: `none` for a disabled node, else the node
with its children pruned. -/
def Node.prune : Node → Option Node
  | .mk enabled program type payload children =>
    if enabled then some (.mk enabled program type payload (prune_children children))
    else none
/-- The children that survive pruning, pruned, in stored order. -/
def prune_children : List Node → List Node
  | [] => []
  | child :: rest =>
    match child.prune with
    | none => prune_children rest
    | some c => c :: prune_children rest
end

mutual
/-- The nodes of a tree in pre-order: the node, then its children's subtrees in
stored order. -/
def Node.preorder : Node → List Node
  | .mk enabled program type payload children =>
    .mk enabled program type payload children :: preorder_children children
/-- The pre-order listing of a list of trees, one after the other. -/
def preorder_children : List Node → List Node
  | [] => []
  | child :: rest => child.preorder ++ preorder_children rest
end

/-- The nodes `draw` is specified to visit: the pre-order of the pruned tree. -/
def Node.visited (n : Node) : List Node :=
  match n.prune with
  | none => []
  | some m => m.preorder

/-- A scene: an enabled label with a disabled child (which has an enabled child of
its own) and an enabled sprite batch child without program. -/
def scene : Node :=
  .mk true 3 .LabelNode 7
    [.mk false 1 .LabelNode 8 [.mk true 2 .DrawableNode 10 []],
     .mk true (-1) .SpriteBatchNode 9 []]

/-- The constant `Renderer::kNumSprites`. -/
def kNumSprites : Nat := 256

/-- The macro `S0(i)`: `(i) * 4`. -/
def S0 (i : Nat) : Nat := i * 4

/-- The macro `S1(i)`: the six indices of sprite `i`. -/
def S1 (i : Nat) : List Nat := [S0 i, S0 i + 1, S0 i + 2, S0 i + 2, S0 i + 3, S0 i]

/-- The macro `S4(i)`. -/
def S4 (i : Nat) : List Nat := S1 i ++ S1 (i + 1) ++ S1 (i + 2) ++ S1 (i + 3)

/-- The macro `S16(i)`. -/
def S16 (i : Nat) : List Nat := S4 i ++ S4 (i + 4) ++ S4 (i + 8) ++ S4 (i + 12)

/-- The macro `S64(i)`. -/
def S64 (i : Nat) : List Nat := S16 i ++ S16 (i + 16) ++ S16 (i + 32) ++ S16 (i + 48)

/-- The macro `S256(i)`. -/
def S256 (i : Nat) : List Nat := S64 i ++ S64 (i + 64) ++ S64 (i + 128) ++ S64 (i + 192)

/-- The array `kDefaultIndices` of `Renderer::init`: `S256(0)` stored as
`unsigned short`. -/
def kDefaultIndices : List Nat := (S256 0).map (fun v => v % 2 ^ 16)

/-- The six indices the claim gives for sprite slot `i`. -/
def quadIndices (i : Nat) : List Nat := [4 * i, 4 * i + 1, 4 * i + 2, 4 * i + 2, 4 * i + 3, 4 * i]

/-- The index pattern of `n` consecutive sprite slots starting at slot `i`. -/
def quadBlocks (n i : Nat) : List Nat := (List.range n).flatMap (fun j => quadIndices (i + j))

/-! ### The sprite as a state machine -/

/-- A call on a sprite: one of the setters that change its pose, or `update`. -/
inductive SpriteCall where
  | set_position (p : Vec2f)
  | move (delta : Vec2f)
  | set_rotation (r : ℚ)
  | rotate (r : ℚ)
  | set_scale (f : ℚ)
  | set_scale_vec (f : Vec2f)
  | set_pivot (p : Vec2f)
  | update
deriving DecidableEq

/-- Runs one call; `none` when an assertion fails. -/
def SpriteCall.apply (cosf sinf : ℚ → ℚ) (s : Sprite) : SpriteCall → Option Sprite
  | .set_position p => some (s.set_position p)
  | .move delta => some (s.move delta)
  | .set_rotation r => some (s.set_rotation r)
  | .rotate r => some (s.rotate r)
  | .set_scale f => s.set_scale f
  | .set_scale_vec f => s.set_scale_vec f
  | .set_pivot p => s.set_pivot p
  | .update => some (s.update cosf sinf)

/-- The states of a sprite from its first `update()` on: the first update runs on a
sprite whose two dirty bits are still set, as the constructor leaves them, and any
sequence of calls follows. -/
inductive Updated (cosf sinf : ℚ → ℚ) : Sprite → Prop where
  | first (s : Sprite) :
      s.stale_ &&& kStaleBuffer ≠ 0 → s.stale_ &&& kStalePosition ≠ 0 →
      Updated cosf sinf (s.update cosf sinf)
  | step {s t : Sprite} (c : SpriteCall) :
      Updated cosf sinf s → c.apply cosf sinf s = some t → Updated cosf sinf t

/-- The rotation matrix of cosine `c` and sine `s` applied to `o`. -/
def rotate2 (c s : ℚ) (o : Vec2f) : Vec2f := ⟨c * o.x - s * o.y, s * o.x + c * o.y⟩

/-- The matrix `diag(scale.x, scale.y)` applied to `v`. -/
def scale2 (scale v : Vec2f) : Vec2f := ⟨scale.x * v.x, scale.y * v.y⟩

/-- The four corner offsets `o_0 .. o_3` of a sprite in its local space, as the
specification gives them. -/
def Sprite.corners (s : Sprite) : Vec2f × Vec2f × Vec2f × Vec2f :=
  let o0 : Vec2f := ⟨-(s.width_ : ℚ) * s.pivot_.x, -(s.height_ : ℚ) * (1 - s.pivot_.y)⟩
  (o0, o0.add ⟨s.width_, 0⟩, o0.add ⟨s.width_, s.height_⟩, o0.add ⟨0, s.height_⟩)

/-- The specified position of a corner: `center + S * R(-angle) * o`. -/
def Sprite.placed (cosf sinf : ℚ → ℚ) (s : Sprite) (center o : Vec2f) : Vec2f :=
  center.add (scale2 s.scale_ (rotate2 (cosf (-s.angle_)) (sinf (-s.angle_)) o))

/-! ### Teardown of the texture manager -/

/-- The array of a `Vector<TextureId>` seen as an array of `unsigned int`, as
`purge` reinterprets it: record `j` occupies the words `2j` (its `id`) and `2j + 1`
(its `sz`). -/
def words (t : List TextureId) : Nat → Nat := fun j =>
  match t[j / 2]? with
  | none => 0
  | some r => if j % 2 = 0 then r.id else r.sz

/-- The loop `for (i = 0; i < t.size(); ++i) textures[i] = t[i].id` of `purge`, run
for `n` rounds on the memory `mem`: `textures[i]` is word `i` and `t[i].id` is word
`2 * i` of the same memory. -/
def purge_loop (n : Nat) (mem : Nat → Nat) : Nat → Nat :=
  (List.range n).foldl (fun m i => Function.update m i (m (2 * i))) mem

/-- The method `TextureManager::purge`, applied to one of the two vectors: the
manager with its log, and the vector as the call leaves it. `glDeleteTextures`
reads the first `t.size()` words. -/
def TextureManager.purge (tm : TextureManager) (t : List TextureId) :
    TextureManager × List TextureId :=
  if t.length = 0 then (tm, t)
  else
    let textures := purge_loop t.length (words t)
    ({ tm with gl := tm.gl ++
        [GLCall.glDeleteTextures t.length ((List.range t.length).map textures)] }, [])

/-- The destructor `TextureManager::~TextureManager`: `purge(recycled)`, then
`purge(textures)`. -/
def TextureManager.destroy (tm : TextureManager) : TextureManager :=
  let r := tm.purge tm.recycled
  let tm := { r.1 with recycled := r.2 }
  let r := tm.purge tm.textures
  { r.1 with textures := r.2 }

/-- The names a backend call deletes. -/
def GLCall.deleted : GLCall → List Nat
  | .glDeleteTextures _ textures => textures
  | _ => []

/-! ## Lyrical label -/

/-- The kinds of `LyricalLabel::Attribute`. -/
inductive AttributeType where
  | Color
  | Offset
deriving DecidableEq

/-- The record `LyricalLabel::Attribute` as its constructors fill it: `start` and
`length` are `unsigned int`, `color` four bytes, `offset` two `int`s. -/
structure Attribute where
  type : AttributeType
  start : Nat
  length : Nat
  color : Nat × Nat × Nat × Nat
  offset : Int × Int
deriving DecidableEq

/-- A vertex of the label's buffer, as the attribute loops use it: a colour with
the components `r`, `g`, `b`, `a`, and a position. -/
structure LabelVertex where
  color : Nat × Nat × Nat × Nat
  texcoord : Vec2f
  position : Vec2f
deriving DecidableEq

/-- The function `LyricalLabel::get_interval` for a label of `length` characters;
every product and sum is taken in `unsigned int`. -/
def get_interval (length : Nat) (attr : Attribute) : Nat × Nat :=
  let final := (length % 2 ^ 32) * 4 % 2 ^ 32
  (min (attr.start % 2 ^ 32 * 4 % 2 ^ 32) final,
   min ((attr.start % 2 ^ 32 + attr.length % 2 ^ 32) % 2 ^ 32 * 4 % 2 ^ 32) final)

/-- The loop `for (uint_t i = lo; i < hi; ++i)` applying `f` to `buffer[i]`; `none`
when an index lies outside the buffer. -/
def for_interval (f : LabelVertex → LabelVertex) (buffer : List LabelVertex) (lo hi : Nat) :
    Option (List LabelVertex) :=
  (List.range' lo (hi - lo)).foldlM
    (fun b i =>
      match b[i]? with
      | none => none
      | some v => some (b.set i (f v)))
    buffer

/-- The body of the attribute loop of `LyricalLabel::update` for one attribute. -/
def apply_attribute (length : Nat) (buffer : List LabelVertex) (attr : Attribute) :
    Option (List LabelVertex) :=
  let interval := get_interval length attr
  match attr.type with
  | .Color => for_interval (fun v => { v with color := attr.color }) buffer interval.1 interval.2
  | .Offset =>
    for_interval
      (fun v => { v with position := ⟨v.position.x + attr.offset.1, v.position.y + attr.offset.2⟩ })
      buffer interval.1 interval.2

/-- The body of the attribute loop of `LyricalLabel::undo_from` for one attribute;
`c` is the colour of the label. -/
def undo_attribute (length : Nat) (c : Nat × Nat × Nat × Nat) (buffer : List LabelVertex)
    (attr : Attribute) : Option (List LabelVertex) :=
  let interval := get_interval length attr
  match attr.type with
  | .Color => for_interval (fun v => { v with color := c }) buffer interval.1 interval.2
  | .Offset =>
    for_interval
      (fun v => { v with position := ⟨v.position.x - attr.offset.1, v.position.y - attr.offset.2⟩ })
      buffer interval.1 interval.2

/-- The attribute loop of `LyricalLabel::update`: the attributes from index
`applied` on are applied in order. -/
def update_attributes (length : Nat) (buffer : List LabelVertex) (attributes : List Attribute)
    (applied : Nat) : Option (List LabelVertex) :=
  (attributes.drop applied).foldlM (apply_attribute length) buffer

/-- The attribute loop of `LyricalLabel::undo_from`: the attributes from the
iterator `first` on are undone in order. -/
def undo_attributes (length : Nat) (c : Nat × Nat × Nat × Nat) (buffer : List LabelVertex)
    (attributes : List Attribute) (first : Nat) : Option (List LabelVertex) :=
  (attributes.drop first).foldlM (undo_attribute length c) buffer

/-- A vertex buffer of `n` vertices with every field zero. -/
def blankBuffer (n : Nat) : List LabelVertex := List.replicate n ⟨(0, 0, 0, 0), ⟨0, 0⟩, ⟨0, 0⟩⟩

/-- The 10x20 sprite turned by half a radian with `set_rotation` and updated once,
with `circleCos` and `circleSin` in the place of `cosf` and `sinf`: its matrix is
the rotation of cosine `3/5` and sine `-4/5`. -/
def sprite10x20turned : Sprite :=
  Sprite.update circleCos circleSin
    ((Sprite.new 10 20 VertexArray.zero ⟨0, 0⟩).set_rotation (1 / 2))

/-! ## Theorems: sprite -/

theorem stale_buffer_iff (x : Nat) : x &&& kStaleBuffer ≠ 0 ↔ x.testBit 0 = true := by
  have h := Nat.and_two_pow x 0
  simp only [pow_zero, mul_one] at h
  simp only [kStaleBuffer, Nat.shiftLeft_zero, h]
  cases x.testBit 0 <;> simp

theorem stale_position_iff (x : Nat) : x &&& kStalePosition ≠ 0 ↔ x.testBit 1 = true := by
  have h := Nat.and_two_pow x 1
  have hk : kStalePosition = 2 ^ 1 := by decide
  rw [hk, h]
  cases x.testBit 1 <;> simp

theorem or_position_position (x : Nat) : (x ||| kStalePosition) &&& kStalePosition ≠ 0 := by
  rw [stale_position_iff, Nat.testBit_or]
  have : kStalePosition.testBit 1 = true := by decide
  simp [this]

theorem or_buffer_buffer (x : Nat) : (x ||| kStaleBuffer) &&& kStaleBuffer ≠ 0 := by
  rw [stale_buffer_iff, Nat.testBit_or]
  have : kStaleBuffer.testBit 0 = true := by decide
  simp [this]

theorem or_buffer_position (x : Nat) :
    ((x ||| kStaleBuffer) &&& kStalePosition ≠ 0) ↔ (x &&& kStalePosition ≠ 0) := by
  rw [stale_position_iff, stale_position_iff, Nat.testBit_or]
  have : kStaleBuffer.testBit 1 = false := by decide
  simp [this]

theorem ne_zero_of_buffer {x : Nat} (h : x &&& kStaleBuffer ≠ 0) : x ≠ 0 := by
  rintro rfl
  simp at h

namespace Sprite
variable (cosf sinf : ℚ → ℚ)

theorem quad_congr {s t : Sprite} (h : SamePose s t) (c : Vec2f) :
    quad cosf sinf s c = quad cosf sinf t c := by
  obtain ⟨h1, h2, h3, h4, h5⟩ := h
  simp only [quad, update_buffer, positions, h1, h2, h3, h4, h5]
  split <;> rfl

theorem update_buffer_positions (s : Sprite) :
    (update_buffer cosf sinf s).positions =
      quad cosf sinf s (if s.stale_ &&& kStalePosition ≠ 0 then s.position_ else s.center_) := by
  have hk : kStaleBuffer &&& kStalePosition = 0 := by decide
  simp only [quad, update_buffer, positions, hk]
  split <;> simp

theorem quad_add (s : Sprite) (c d : Vec2f) :
    quad cosf sinf s (c.add d) = shift (quad cosf sinf s c) d := by
  have hk : kStaleBuffer &&& kStalePosition = 0 := by decide
  simp only [quad, update_buffer, positions, hk, shift, transform_rst, transform_st, Vec2f.add,
    ne_eq, not_true_eq_false, if_false]
  split <;> simp only [Prod.mk.injEq, Vec2f.mk.injEq] <;> constructorm* _ ∧ _ <;> ring


theorem samePose_update_buffer (s : Sprite) : SamePose s (update_buffer cosf sinf s) := by
  simp only [update_buffer]
  split_ifs <;> exact ⟨rfl, rfl, rfl, rfl, rfl⟩

theorem update_buffer_stale (s : Sprite) : (update_buffer cosf sinf s).stale_ = 0 := by
  simp only [update_buffer]
  split_ifs <;> rfl

theorem update_buffer_center (s : Sprite) :
    (update_buffer cosf sinf s).center_ =
      if s.stale_ &&& kStalePosition ≠ 0 then s.position_ else s.center_ := by
  simp only [update_buffer]
  split_ifs <;> rfl

theorem update_buffer_position (s : Sprite) :
    (update_buffer cosf sinf s).position_ = s.position_ := by
  simp only [update_buffer]
  split_ifs <;> rfl

theorem vec_add_sub (c p : Vec2f) : c.add (p.sub c) = p := by
  cases c
  cases p
  simp [Vec2f.add, Vec2f.sub]

theorem update_position_positions (s : Sprite) :
    (update_position s).positions = shift s.positions (s.position_.sub s.center_) := rfl

theorem update_idem (s : Sprite) : update cosf sinf (update cosf sinf s) = update cosf sinf s := by
  have h0 : (update cosf sinf s).stale_ = 0 := by
    unfold update
    split
    · assumption
    · split
      · exact update_buffer_stale cosf sinf s
      · rfl
  generalize update cosf sinf s = t at h0
  simp [update, h0]

end Sprite

namespace Sprite
variable (cosf sinf : ℚ → ℚ)

theorem update_positions_of_upToDate {s : Sprite} (h : UpToDate cosf sinf s) :
    (update cosf sinf s).positions = quad cosf sinf s (pendingCenter s) := by
  rcases h with hb | ⟨h0 | h2, hq⟩
  · have hu : update cosf sinf s = update_buffer cosf sinf s := by
      simp [update, ne_zero_of_buffer hb, hb]
    rw [hu, update_buffer_positions]
    rfl
  · have hu : update cosf sinf s = s := by simp [update, h0]
    have hc : pendingCenter s = s.center_ := by simp [pendingCenter, h0]
    rw [hu, hc, hq]
  · have e1 : kStalePosition ≠ 0 := by decide
    have e2 : kStalePosition &&& kStaleBuffer = 0 := by decide
    have hu : update cosf sinf s = update_position s := by simp [update, h2, e1, e2]
    have hc : pendingCenter s = s.position_ := by simp [pendingCenter, h2, e1]
    rw [hu, hc, update_position_positions, hq, ← quad_add, vec_add_sub]

theorem rotate_of_ne (s : Sprite) {r : ℚ} (hr : r ≠ 0) :
    s.rotate r = { s with angle_ := s.angle_ + r, stale_ := s.stale_ ||| kStaleBuffer } := by
  simp [rotate, equal, hr]

theorem update_dirty_positions (s : Sprite) (x : Nat) (hx : x &&& kStaleBuffer ≠ 0)
    (hp : x &&& kStalePosition ≠ 0 ↔ s.stale_ &&& kStalePosition ≠ 0) :
    (update cosf sinf { s with stale_ := x }).positions = quad cosf sinf s (pendingCenter s) := by
  have hu : update cosf sinf { s with stale_ := x } = update_buffer cosf sinf { s with stale_ := x } := by
    simp [update, ne_zero_of_buffer hx, hx]
  rw [hu, update_buffer_positions]
  have hq : SamePose { s with stale_ := x } s := ⟨rfl, rfl, rfl, rfl, rfl⟩
  rw [quad_congr cosf sinf hq]
  by_cases hs : s.stale_ &&& kStalePosition ≠ 0
  · simp only [pendingCenter, if_pos hs, if_pos (hp.mpr hs)]
  · have hx2 : ¬ (x &&& kStalePosition ≠ 0) := fun k => hs (hp.mp k)
    simp only [pendingCenter, if_neg hs, if_neg hx2]

theorem update_rotate_update_rotate (s : Sprite) (r : ℚ) (hr : r ≠ 0) :
    (update cosf sinf ((update cosf sinf (s.rotate r)).rotate (-r))).positions =
      quad cosf sinf s (pendingCenter s) := by
  have hb : (s.rotate r).stale_ &&& kStaleBuffer ≠ 0 := by
    simp only [rotate, equal, beq_iff_eq, hr, if_false]
    exact or_buffer_buffer s.stale_
  have hu : update cosf sinf (s.rotate r) = update_buffer cosf sinf (s.rotate r) := by
    simp [update, ne_zero_of_buffer hb, hb]
  have hnr : ¬ (-r = 0) := by simpa using hr
  have hstale : ((update_buffer cosf sinf (s.rotate r)).rotate (-r)).stale_ = kStaleBuffer := by
    simp [rotate, equal, hnr, update_buffer_stale]
  have hb2 : ((update_buffer cosf sinf (s.rotate r)).rotate (-r)).stale_ &&& kStaleBuffer ≠ 0 := by
    rw [hstale]
    decide
  have hp2 : ¬ (((update_buffer cosf sinf (s.rotate r)).rotate (-r)).stale_ &&& kStalePosition ≠ 0) := by
    rw [hstale]
    decide
  have hu2 : update cosf sinf ((update_buffer cosf sinf (s.rotate r)).rotate (-r)) =
      update_buffer cosf sinf ((update_buffer cosf sinf (s.rotate r)).rotate (-r)) := by
    simp [update, ne_zero_of_buffer hb2, hb2]
  have hpose : SamePose ((update_buffer cosf sinf (s.rotate r)).rotate (-r)) s := by
    obtain ⟨a1, a2, a3, a4, a5⟩ := samePose_update_buffer cosf sinf (s.rotate r)
    rw [rotate_of_ne _ hnr]
    refine ⟨?_, ?_, ?_, ?_, ?_⟩
    · show (update_buffer cosf sinf (s.rotate r)).angle_ + -r = s.angle_
      rw [← a1, rotate_of_ne s hr]
      show s.angle_ + r + -r = s.angle_
      ring
    · show (update_buffer cosf sinf (s.rotate r)).width_ = s.width_
      rw [← a2, rotate_of_ne s hr]
    · show (update_buffer cosf sinf (s.rotate r)).height_ = s.height_
      rw [← a3, rotate_of_ne s hr]
    · show (update_buffer cosf sinf (s.rotate r)).pivot_ = s.pivot_
      rw [← a4, rotate_of_ne s hr]
    · show (update_buffer cosf sinf (s.rotate r)).scale_ = s.scale_
      rw [← a5, rotate_of_ne s hr]
  have hcenter : ((update_buffer cosf sinf (s.rotate r)).rotate (-r)).center_ = pendingCenter s := by
    simp only [rotate, equal, beq_iff_eq, hnr, if_false, update_buffer_center, hr, pendingCenter]
    by_cases hs : s.stale_ &&& kStalePosition ≠ 0
    · rw [if_pos ((or_buffer_position s.stale_).mpr hs), if_pos hs]
    · have hs2 : ¬ ((s.stale_ ||| kStaleBuffer) &&& kStalePosition ≠ 0) :=
        fun k => hs ((or_buffer_position s.stale_).mp k)
      rw [if_neg hs2, if_neg hs]
  rw [hu, hu2, update_buffer_positions, if_neg hp2, hcenter, quad_congr cosf sinf hpose]

end Sprite

theorem sprite10x20_eq : sprite10x20 =
    { angle_ := 0, width_ := 10, height_ := 20, stale_ := 0,
      vertex_array_ := ⟨⟨0, ⟨0, 0⟩, ⟨-5, -10⟩⟩, ⟨0, ⟨0, 0⟩, ⟨5, -10⟩⟩,
                        ⟨0, ⟨0, 0⟩, ⟨5, 10⟩⟩, ⟨0, ⟨0, 0⟩, ⟨-5, 10⟩⟩⟩,
      center_ := ⟨0, 0⟩, pivot_ := ⟨1 / 2, 1 / 2⟩, position_ := ⟨0, 0⟩, scale_ := ⟨1, 1⟩ } := by
  have e1 : (2 ^ 32 - 1 : Nat) ≠ 0 := by decide
  have e2 : (2 ^ 32 - 1 : Nat) &&& kStaleBuffer ≠ 0 := by decide
  have e3 : (2 ^ 32 - 1 : Nat) &&& kStalePosition ≠ 0 := by decide
  simp only [sprite10x20, Sprite.update, Sprite.new, Sprite.update_buffer, equal, transform_st,
    VertexArray.zero]
  simp only [if_neg e1, if_pos e2, if_pos e3]
  norm_num

theorem sprite10x20_set_pivot : sprite10x20.set_pivot ⟨1 / 2, 1⟩ =
    some { sprite10x20 with center_ := ⟨0, 10⟩, position_ := ⟨0, 10⟩, pivot_ := ⟨1 / 2, 1⟩ } := by
  rw [sprite10x20_eq]
  simp only [Sprite.set_pivot, Vec2f.sub, Vec2f.add, Vec2f.is_zero]
  norm_num

/-! ### Claims about the sprite -/

/-- C2. `Sprite::mirror` is an involution: after two calls the sprite, and with
it the four texture coordinates of its slice, is exactly as before the first. -/
theorem mirror_involution (s : Sprite) :
    s.mirror.mirror = s ∧ s.mirror.mirror.texcoords = s.texcoords := by
  have h : s.mirror.mirror = s := by
    cases s
    rfl
  exact ⟨h, by rw [h]⟩

/-- C3. For a sprite whose pivot `p0` is valid and every valid pivot `p`,
`set_pivot(p)` followed by `set_pivot(p0)` succeeds and gives back the sprite it
started from: `position_`, `center_` and `pivot_` (and every other field) have
exactly their original values. -/
theorem set_pivot_round_trip (s : Sprite) (p : Vec2f)
    (hp : p.x ≥ 0 ∧ p.x ≤ 1 ∧ p.y ≥ 0 ∧ p.y ≤ 1)
    (h0 : s.pivot_.x ≥ 0 ∧ s.pivot_.x ≤ 1 ∧ s.pivot_.y ≥ 0 ∧ s.pivot_.y ≤ 1) :
    (s.set_pivot p).bind (fun t => t.set_pivot s.pivot_) = some s := by
  obtain ⟨a, w, h, st, va, c, pv, pos, sc⟩ := s
  obtain ⟨px, py⟩ := p
  obtain ⟨cx, cy⟩ := c
  obtain ⟨qx, qy⟩ := pv
  obtain ⟨ox, oy⟩ := pos
  simp only at hp h0
  by_cases hz : px - qx = 0 ∧ py - qy = 0
  · simp [Sprite.set_pivot, hp, h0, Vec2f.sub, Vec2f.is_zero, hz]
  · have hz2 : ¬ (qx - px = 0 ∧ qy - py = 0) := by
      rintro ⟨e1, e2⟩
      exact hz ⟨by linarith, by linarith⟩
    simp only [Sprite.set_pivot, hp, h0, Vec2f.sub, Vec2f.add, Vec2f.is_zero, hz, hz2,
      and_self, if_true, beq_iff_eq, Bool.and_eq_true, Bool.false_eq_true, if_false,
      Option.some_bind, Option.some.injEq, Sprite.mk.injEq, Vec2f.mk.injEq, true_and, and_true]
    constructorm* _ ∧ _ <;> ring

/-- Witness for C3: the pivot of the 10x20 sprite goes from `(0.5,0.5)` to
`(0.5,1)` and back. -/
theorem set_pivot_round_trip_witness :
    ((1 / 2 : ℚ) ≥ 0 ∧ (1 / 2 : ℚ) ≤ 1 ∧ (1 : ℚ) ≥ 0 ∧ (1 : ℚ) ≤ 1) ∧
    (sprite10x20.pivot_.x ≥ 0 ∧ sprite10x20.pivot_.x ≤ 1 ∧
      sprite10x20.pivot_.y ≥ 0 ∧ sprite10x20.pivot_.y ≤ 1) ∧
    (sprite10x20.set_pivot ⟨1 / 2, 1⟩).bind (fun t => t.set_pivot sprite10x20.pivot_) =
      some sprite10x20 :=
  ⟨by norm_num, by rw [sprite10x20_eq]; norm_num,
    set_pivot_round_trip sprite10x20 ⟨1 / 2, 1⟩ (by norm_num) (by rw [sprite10x20_eq]; norm_num)⟩

theorem sprite10x20turned_eq : sprite10x20turned =
    { angle_ := 1 / 2, width_ := 10, height_ := 20, stale_ := 0,
      vertex_array_ := ⟨⟨0, ⟨0, 0⟩, ⟨-11, -2⟩⟩, ⟨0, ⟨0, 0⟩, ⟨-5, -10⟩⟩,
                        ⟨0, ⟨0, 0⟩, ⟨11, 2⟩⟩, ⟨0, ⟨0, 0⟩, ⟨5, 10⟩⟩⟩,
      center_ := ⟨0, 0⟩, pivot_ := ⟨1 / 2, 1 / 2⟩, position_ := ⟨0, 0⟩, scale_ := ⟨1, 1⟩ } := by
  have e1 : ((2 ^ 32 - 1 : Nat) ||| kStaleBuffer) ≠ 0 := by decide
  have e2 : ((2 ^ 32 - 1 : Nat) ||| kStaleBuffer) &&& kStaleBuffer ≠ 0 := by decide
  have e3 : ((2 ^ 32 - 1 : Nat) ||| kStaleBuffer) &&& kStalePosition ≠ 0 := by decide
  have ha : ¬ (equal (1 / 2 : ℚ) 0 = true) := by simp [equal]
  simp only [sprite10x20turned, Sprite.update, Sprite.new, Sprite.set_rotation,
    Sprite.update_buffer, transform_rst, VertexArray.zero, circleCos, circleSin]
  simp only [if_neg e1, if_pos e2, if_pos e3, if_pos ha]
  norm_num

theorem sprite10x20turned_set_pivot : sprite10x20turned.set_pivot ⟨1, 1 / 2⟩ =
    some { sprite10x20turned with center_ := ⟨5, 0⟩, position_ := ⟨5, 0⟩,
                                  pivot_ := ⟨1, 1 / 2⟩ } := by
  rw [sprite10x20turned_eq]
  simp only [Sprite.set_pivot, Vec2f.sub, Vec2f.add, Vec2f.is_zero]
  norm_num

/-- Counterexample to C8 as stated. The 10x20 sprite is turned by half a radian
with `set_rotation` and updated, so its slice holds the turned quad
`(-11,-2), (-5,-10), (11,2), (5,10)`. Its pivot is then set to `(1,0.5)`, a
change in x only: `set_pivot` sets no dirty bit and moves `center_` by `(5,0)`,
the pivot difference in unrotated local units. From that state `update()` alone
changes nothing and the slice keeps the quad above, while `rotate(pi)`,
`rotate(-pi)`, `update()` recomputes the slice for the new pivot and centre,
`(-9,2), (-3,-6), (13,6), (7,14)`: every vertex differs by `(2,4)`, which is
`(5,0)` less its rotation `(3,-4)`. -/
theorem rotate_round_trip_after_set_pivot :
    (sprite10x20turned.set_pivot ⟨1, 1 / 2⟩).map
        (fun s => (Sprite.update circleCos circleSin ((s.rotate kPi).rotate (-kPi))).positions) =
      some (⟨-9, 2⟩, ⟨-3, -6⟩, ⟨13, 6⟩, ⟨7, 14⟩) ∧
    (sprite10x20turned.set_pivot ⟨1, 1 / 2⟩).map
        (fun s => (Sprite.update circleCos circleSin s).positions) =
      some (⟨-11, -2⟩, ⟨-5, -10⟩, ⟨11, 2⟩, ⟨5, 10⟩) := by
  have hpi : ¬ (kPi = 0) := by norm_num [kPi]
  have hnpi : ¬ (-kPi = 0) := by norm_num [kPi]
  have hang : (1 / 2 : ℚ) + kPi + -kPi = 1 / 2 := by ring
  have ha : ¬ ((1 / 2 : ℚ) = 0) := by norm_num
  have e1 : (0 ||| kStaleBuffer ||| kStaleBuffer) ≠ 0 := by decide
  have e2 : (0 ||| kStaleBuffer ||| kStaleBuffer) &&& kStaleBuffer ≠ 0 := by decide
  have e3 : ¬ ((0 ||| kStaleBuffer ||| kStaleBuffer) &&& kStalePosition ≠ 0) := by decide
  rw [sprite10x20turned_set_pivot, sprite10x20turned_eq]
  constructor
  · simp only [Option.map, Sprite.rotate, equal, beq_iff_eq, hpi, hnpi, if_false, Sprite.update,
      if_neg e1, if_pos e2, Sprite.update_buffer, if_neg e3, Sprite.positions, transform_rst,
      hang, ha, not_false_eq_true, if_true, circleCos, circleSin]
    norm_num
  · simp [Sprite.update, Sprite.positions]

/-- C8, amended. For every sprite whose slice is up to date for its pose (its
transform-dirty bit is set, or no other bit than position-dirty is set and the
slice holds the full transform at the current centre) and every angle `r`:
`rotate(r)`, `rotate(-r)`, `update()` leaves the four vertex positions equal to
those `update()` alone gives, and so does `rotate(r)`, `update()`, `rotate(-r)`,
`update()`. -/
theorem rotate_round_trip (cosf sinf : ℚ → ℚ) (s : Sprite) (r : ℚ)
    (h : Sprite.UpToDate cosf sinf s) :
    (Sprite.update cosf sinf ((s.rotate r).rotate (-r))).positions =
        (Sprite.update cosf sinf s).positions ∧
      (Sprite.update cosf sinf ((Sprite.update cosf sinf (s.rotate r)).rotate (-r))).positions =
        (Sprite.update cosf sinf s).positions := by
  rw [Sprite.update_positions_of_upToDate cosf sinf h]
  by_cases hr : r = 0
  · have e1 : s.rotate r = s := by simp [Sprite.rotate, equal, hr]
    have e2 : ∀ t : Sprite, t.rotate (-r) = t := by
      intro t
      simp [Sprite.rotate, equal, hr]
    rw [e1, e2, e2, Sprite.update_idem, Sprite.update_positions_of_upToDate cosf sinf h]
    exact ⟨rfl, rfl⟩
  · refine ⟨?_, Sprite.update_rotate_update_rotate cosf sinf s r hr⟩
    have e : (s.rotate r).rotate (-r) =
        { s with stale_ := s.stale_ ||| kStaleBuffer ||| kStaleBuffer } := by
      simp [Sprite.rotate, equal, hr]
    rw [e]
    apply Sprite.update_dirty_positions
    · exact or_buffer_buffer _
    · rw [or_buffer_position, or_buffer_position]

/-- Witness for C8: the freshly constructed 10x20 sprite with pivot `(0.5,0.5)`,
rotated by `pi` and then by `-pi`. -/
theorem rotate_round_trip_witness :
    Sprite.UpToDate cosPoly sinPoly (Sprite.new 10 20 VertexArray.zero ⟨0, 0⟩) ∧
    ((Sprite.update cosPoly sinPoly
        (((Sprite.new 10 20 VertexArray.zero ⟨0, 0⟩).rotate kPi).rotate (-kPi))).positions =
      (Sprite.update cosPoly sinPoly (Sprite.new 10 20 VertexArray.zero ⟨0, 0⟩)).positions ∧
    (Sprite.update cosPoly sinPoly
        ((Sprite.update cosPoly sinPoly
          ((Sprite.new 10 20 VertexArray.zero ⟨0, 0⟩).rotate kPi)).rotate (-kPi))).positions =
      (Sprite.update cosPoly sinPoly (Sprite.new 10 20 VertexArray.zero ⟨0, 0⟩)).positions) :=
  ⟨Or.inl (by decide), rotate_round_trip cosPoly sinPoly _ kPi (Or.inl (by decide))⟩

/-- What `set_pivot` does to the recomputed quad of a sprite at angle zero: for
every valid pivot `p` the call succeeds, and the full-recompute branch of
`update()` gives, from the state after it, the four positions it gives from the
state before it moved by `2 * (p.y - pivot_.y) * height_ * scale_.y` in y and by
nothing in x. The shift of `center_` cancels the move of the origin in x and
doubles it in y. -/
theorem set_pivot_moves_quad_in_y (cosf sinf : ℚ → ℚ) (s : Sprite) (p : Vec2f)
    (ha : s.angle_ = 0) (hp : p.x ≥ 0 ∧ p.x ≤ 1 ∧ p.y ≥ 0 ∧ p.y ≤ 1) :
    ∃ t, s.set_pivot p = some t ∧
      (Sprite.update_buffer cosf sinf t).positions =
        Sprite.shift (Sprite.update_buffer cosf sinf s).positions
          ⟨0, 2 * ((p.y - s.pivot_.y) * ((s.height_ : ℚ) * s.scale_.y))⟩ := by
  obtain ⟨a, w, h, st, va, c, pv, pos, sc⟩ := s
  obtain ⟨px, py⟩ := p
  obtain ⟨qx, qy⟩ := pv
  simp only at ha hp
  subst ha
  have heq : equal (0 : ℚ) 0 = true := by simp [equal]
  by_cases hz : px - qx = 0 ∧ py - qy = 0
  · refine ⟨⟨0, w, h, st, va, c, ⟨qx, qy⟩, pos, sc⟩,
      by simp [Sprite.set_pivot, hp, Vec2f.sub, Vec2f.is_zero, hz], ?_⟩
    simp only [Sprite.update_buffer, Sprite.positions, Sprite.shift, heq, transform_st,
      Vec2f.add, not_true_eq_false, if_false, hz.2]
    split_ifs <;> simp only [Prod.mk.injEq, Vec2f.mk.injEq] <;> constructorm* _ ∧ _ <;> ring
  · have e : Sprite.set_pivot ⟨0, w, h, st, va, c, ⟨qx, qy⟩, pos, sc⟩ ⟨px, py⟩ =
        some ⟨0, w, h, st, va, c.add ⟨(px - qx) * ((w : ℚ) * sc.x), (py - qy) * ((h : ℚ) * sc.y)⟩,
          ⟨px, py⟩, pos.add ⟨(px - qx) * ((w : ℚ) * sc.x), (py - qy) * ((h : ℚ) * sc.y)⟩, sc⟩ := by
      simp only [Sprite.set_pivot, hp, Vec2f.sub, Vec2f.is_zero]
      simp [hz]
    refine ⟨_, e, ?_⟩
    simp only [Sprite.update_buffer, Sprite.positions, Sprite.shift, heq, transform_st,
      Vec2f.add, not_true_eq_false, if_false]
    split_ifs <;> simp only [Prod.mk.injEq, Vec2f.mk.injEq] <;> constructorm* _ ∧ _ <;> ring

/-- The shift that compensates a pivot change at angle zero: when `pivot_` becomes
`p` and `center_` and `position_` move by `(p.x - pivot_.x) * width_ * scale_.x`
in x and by the opposite of `(p.y - pivot_.y) * height_ * scale_.y` in y, the
full-recompute branch of `update()` writes the same four positions as before.
`set_pivot` adds the y component with the other sign. -/
theorem update_buffer_pivot_compensated (cosf sinf : ℚ → ℚ) (s : Sprite) (p : Vec2f)
    (ha : s.angle_ = 0) :
    (Sprite.update_buffer cosf sinf
      { s with
          center_ := s.center_.add ⟨(p.x - s.pivot_.x) * ((s.width_ : ℚ) * s.scale_.x),
                                    -((p.y - s.pivot_.y) * ((s.height_ : ℚ) * s.scale_.y))⟩
          position_ := s.position_.add ⟨(p.x - s.pivot_.x) * ((s.width_ : ℚ) * s.scale_.x),
                                        -((p.y - s.pivot_.y) * ((s.height_ : ℚ) * s.scale_.y))⟩
          pivot_ := p }).positions =
      (Sprite.update_buffer cosf sinf s).positions := by
  obtain ⟨a, w, h, st, va, c, pv, pos, sc⟩ := s
  simp only at ha
  subst ha
  have heq : equal (0 : ℚ) 0 = true := by simp [equal]
  simp only [Sprite.update_buffer, Sprite.positions, heq, transform_st, Vec2f.add,
    not_true_eq_false, if_false]
  split_ifs <;> simp only [Prod.mk.injEq, Vec2f.mk.injEq] <;> constructorm* _ ∧ _ <;> ring

/-- C9, evaluated at an input where it fails. The 10x20 sprite at the origin, at
angle zero and scale one, has up-to-date vertices `(-5,-10), (5,-10), (5,10),
(-5,10)`. After `set_pivot((0.5,1))` the full-recompute branch of `update()`
writes `(-5,10), (5,10), (5,30), (-5,30)`: the sprite has moved up by 20, twice
the `10` that `set_pivot` adds to `center_.y`. -/
theorem set_pivot_moves_sprite :
    (sprite10x20.set_pivot ⟨1 / 2, 1⟩).map
        (fun t => (Sprite.update_buffer cosPoly sinPoly t).positions) =
      some (⟨-5, 10⟩, ⟨5, 10⟩, ⟨5, 30⟩, ⟨-5, 30⟩) ∧
    (Sprite.update_buffer cosPoly sinPoly sprite10x20).positions =
      (⟨-5, -10⟩, ⟨5, -10⟩, ⟨5, 10⟩, ⟨-5, 10⟩) := by
  rw [sprite10x20_set_pivot, sprite10x20_eq]
  simp only [Option.map, Sprite.update_buffer, Sprite.positions, equal, transform_st]
  norm_num

/-! ## Theorems: texture manager -/

theorem set_cons_perm {α : Type} (a : α) :
    ∀ (l : List α) (i : Nat) (h : i < l.length), (l.get ⟨i, h⟩ :: l.set i a).Perm (a :: l)
  | b :: l, 0, _ => List.Perm.swap _ _ _
  | b :: l, i + 1, h => by
    have ih := set_cons_perm a l i (Nat.lt_of_succ_lt_succ h)
    simp only [List.get_cons_succ, List.set_cons_succ]
    exact (List.Perm.swap _ _ _).trans ((ih.cons b).trans (List.Perm.swap _ _ _))

/-- The record at index `i` together with what `qerase` leaves is the vector again,
up to order. -/
theorem qerase_cons_perm {α : Type} (v : List α) (i : Nat) (h : i < v.length) :
    (v.get ⟨i, h⟩ :: qerase v i).Perm v := by
  have hne : v ≠ [] := by
    rintro rfl
    simp at h
  obtain ⟨init, last, rfl⟩ : ∃ init last, v = init ++ [last] :=
    ⟨v.dropLast, v.getLast hne, (List.dropLast_append_getLast hne).symm⟩
  have hq : qerase (init ++ [last]) i = init.set i last := by
    simp [qerase]
  rw [hq]
  by_cases hi : i < init.length
  · have e : (init ++ [last]).get ⟨i, h⟩ = init.get ⟨i, hi⟩ := by
      simp [List.getElem_append_left, hi]
    rw [e]
    exact (set_cons_perm last init i hi).trans (List.perm_append_singleton last init).symm
  · have hlen : i = init.length := by
      simp at h
      omega
    subst hlen
    have e : (init ++ [last]).get ⟨init.length, h⟩ = last := by simp
    rw [e, List.set_eq_of_length_le (Nat.le_refl _)]
    exact (List.perm_append_singleton last init).symm

theorem sizes_perm {l m : List TextureId} (h : l.Perm m) : sizes l = sizes m :=
  (h.map _).sum_eq

theorem sizes_qerase (v : List TextureId) (i : Nat) (h : i < v.length) :
    sizes (qerase v i) = sizes v - (v.get ⟨i, h⟩).sz := by
  have := sizes_perm (qerase_cons_perm v i h)
  simp only [sizes, List.map_cons, List.sum_cons] at this ⊢
  linarith


namespace TextureManager

theorem bind_textures (tm : TextureManager) (id : Nat) : (tm.bind id).textures = tm.textures := by
  unfold bind
  split <;> rfl

theorem bind_recycled (tm : TextureManager) (id : Nat) : (tm.bind id).recycled = tm.recycled := by
  unfold bind
  split <;> rfl

theorem bind_mem_used (tm : TextureManager) (id : Nat) : (tm.bind id).mem_used = tm.mem_used := by
  unfold bind
  split <;> rfl

theorem bind_gl_countP (tm : TextureManager) (id : Nat) :
    (tm.bind id).gl.countP GLCall.isGenTextures = tm.gl.countP GLCall.isGenTextures := by
  unfold bind
  split
  · rfl
  · simp [List.countP_append, GLCall.isGenTextures]

theorem create_texture_fst (tm : TextureManager) (gen size : Nat) :
    (tm.create_texture gen size).1 =
      ⟨match tm.recycled with
        | [] => gen
        | r0 :: _ => r0.id, size⟩ := by
  unfold create_texture
  cases tm.recycled <;> rfl

theorem create_texture_textures (tm : TextureManager) (gen size : Nat) :
    (tm.create_texture gen size).2.textures = tm.textures := by
  unfold create_texture
  cases tm.recycled <;> simp [bind_textures]

theorem create_texture_recycled (tm : TextureManager) (gen size : Nat) :
    (tm.create_texture gen size).2.recycled =
      match tm.recycled with
      | [] => []
      | _ :: _ => qerase tm.recycled 0 := by
  unfold create_texture
  cases h : tm.recycled <;> simp [bind_recycled, h]

theorem create_texture_mem_used (tm : TextureManager) (gen size : Nat) :
    (tm.create_texture gen size).2.mem_used = tm.mem_used + size := by
  unfold create_texture
  cases tm.recycled <;> simp [bind_mem_used, create_texture_fst]

theorem create_texture_gl_countP (tm : TextureManager) (gen size : Nat) (h : tm.recycled ≠ []) :
    (tm.create_texture gen size).2.gl.countP GLCall.isGenTextures =
      tm.gl.countP GLCall.isGenTextures := by
  unfold create_texture
  cases hr : tm.recycled with
  | nil => exact absurd hr h
  | cons r0 rest => simp [List.countP_append, bind_gl_countP, GLCall.isGenTextures]

theorem create_some {tm : TextureManager} {gen glError internal_format width height format : Nat}
    {r : Nat × TextureManager}
    (hc : tm.create gen glError internal_format width height format = some r) :
    glError = GL_NO_ERROR ∧
    r.1 = (tm.create_texture gen (width * height % 2 ^ 32)).1.id ∧
    r.2.textures = tm.textures ++ [(tm.create_texture gen (width * height % 2 ^ 32)).1] ∧
    r.2.recycled = (tm.create_texture gen (width * height % 2 ^ 32)).2.recycled ∧
    r.2.mem_used = (tm.create_texture gen (width * height % 2 ^ 32)).2.mem_used ∧
    r.2.gl = (tm.create_texture gen (width * height % 2 ^ 32)).2.gl ++
      [GLCall.glTexImage2D GL_TEXTURE_2D 0 internal_format width height 0 format
        GL_UNSIGNED_BYTE] := by
  unfold create at hc
  by_cases he : glError = GL_NO_ERROR
  · simp only [he, if_true, Option.some.injEq] at hc
    subst hc
    simp [create_texture_textures, he]
  · simp [he] at hc

theorem create_compressed_some {tm : TextureManager} {gen glError format width height size : Nat}
    {r : Nat × TextureManager}
    (hc : tm.create_compressed gen glError format width height size = some r) :
    glError = GL_NO_ERROR ∧
    r.1 = (tm.create_texture gen ((width * height % 2 ^ 32) >>> 1)).1.id ∧
    r.2.textures =
      tm.textures ++ [(tm.create_texture gen ((width * height % 2 ^ 32) >>> 1)).1] ∧
    r.2.recycled = (tm.create_texture gen ((width * height % 2 ^ 32) >>> 1)).2.recycled ∧
    r.2.mem_used = (tm.create_texture gen ((width * height % 2 ^ 32) >>> 1)).2.mem_used ∧
    r.2.gl = (tm.create_texture gen ((width * height % 2 ^ 32) >>> 1)).2.gl ++
      [GLCall.glCompressedTexImage2D GL_TEXTURE_2D 0 format width height 0 size] := by
  unfold create_compressed at hc
  by_cases he : glError = GL_NO_ERROR
  · simp only [he, if_true, Option.some.injEq] at hc
    subst hc
    simp [create_texture_textures, he]
  · simp [he] at hc

/-- What `remove` does to the lists and to `mem_used`: nothing when no active record
has the name, else the first such record moves to the end of the recycled list. -/
theorem remove_cases (tm : TextureManager) (id : Nat) :
    ((∀ t ∈ tm.textures, t.id ≠ id) ∧ tm.remove id = tm) ∨
    ∃ (i : Nat) (h : i < tm.textures.length),
      (tm.textures.get ⟨i, h⟩).id = id ∧
      (tm.remove id).textures = qerase tm.textures i ∧
      (tm.remove id).recycled = tm.recycled ++ [tm.textures.get ⟨i, h⟩] ∧
      (tm.remove id).mem_used = tm.mem_used - (tm.textures.get ⟨i, h⟩).sz := by
  by_cases h : tm.textures.findIdx (fun t => t.id == id) < tm.textures.length
  · right
    refine ⟨_, h, ?_, ?_, ?_, ?_⟩
    · have := List.findIdx_getElem (w := h)
      simpa using this
    · simp [remove, h, bind_textures]
    · simp [remove, h, bind_recycled]
    · simp [remove, h, bind_mem_used]
  · left
    constructor
    · intro t ht hid
      apply h
      apply List.findIdx_lt_length_of_exists
      exact ⟨t, ht, by simp [hid]⟩
    · simp [remove, h]

end TextureManager

/-- The accounting invariant: `mem_used` is the sum of the sizes of the active records. -/
theorem mem_used_eq_sizes {k : Nat} {tm : TextureManager} (h : Reachable k tm) :
    tm.mem_used = sizes tm.textures := by
  induction h with
  | init => simp [TextureManager.new, sizes]
  | step c _ hc ih =>
    cases c with
    | create gen glError internal_format width height format =>
      obtain ⟨r, hr, rfl⟩ := Option.map_eq_some'.mp hc
      obtain ⟨_, _, ht, _, hm, _⟩ := TextureManager.create_some hr
      rw [hm, ht, TextureManager.create_texture_mem_used, ih]
      simp [sizes, TextureManager.create_texture_fst]
    | create_compressed gen glError format width height size =>
      obtain ⟨r, hr, rfl⟩ := Option.map_eq_some'.mp hc
      obtain ⟨_, _, ht, _, hm, _⟩ := TextureManager.create_compressed_some hr
      rw [hm, ht, TextureManager.create_texture_mem_used, ih]
      simp [sizes, TextureManager.create_texture_fst]
    | remove id =>
      simp only [TMCall.apply, Option.some.injEq] at hc
      subst hc
      rcases TextureManager.remove_cases _ id with ⟨_, he⟩ | ⟨i, hi, _, ht, _, hm⟩
      · rw [he]
        exact ih
      · rw [hm, ht, sizes_qerase _ i hi, ih]

theorem sizes_nonneg (l : List TextureId) : 0 ≤ sizes l := by
  unfold sizes
  apply List.sum_nonneg
  intro x hx
  simp only [List.mem_map] at hx
  obtain ⟨t, _, rfl⟩ := hx
  exact Nat.cast_nonneg _

theorem ids_create_texture_perm (tm : TextureManager) (gen size : Nat) (h : tm.recycled ≠ []) :
    ((tm.textures ++ [(tm.create_texture gen size).1]).map (fun t => t.id) ++
      (tm.create_texture gen size).2.recycled.map (fun t => t.id)).Perm tm.ids := by
  rw [TextureManager.create_texture_fst, TextureManager.create_texture_recycled]
  cases hr : tm.recycled with
  | nil => exact absurd hr h
  | cons r0 rest =>
    have p1 := (qerase_cons_perm (r0 :: rest) 0 (by simp)).map (fun t => t.id)
    simp only [List.get_eq_getElem, List.getElem_cons_zero, List.map_cons] at p1
    rw [List.perm_iff_count]
    intro a
    have p2 := p1.count_eq a
    simp only [TextureManager.ids, hr, List.map_append, List.map_cons, List.map_nil,
      List.count_append, List.count_cons, List.count_nil] at p2 ⊢
    omega

theorem ids_remove_perm (tm : TextureManager) (id : Nat) : (tm.remove id).ids.Perm tm.ids := by
  rcases TextureManager.remove_cases tm id with ⟨_, he⟩ | ⟨i, hi, _, ht, hr, _⟩
  · rw [he]
  · have p1 := (qerase_cons_perm tm.textures i hi).map (fun t => t.id)
    rw [List.perm_iff_count]
    intro a
    have p2 := p1.count_eq a
    simp only [TextureManager.ids, ht, hr, List.map_append, List.map_cons, List.map_nil,
      List.count_append, List.count_cons, List.count_nil] at p2 ⊢
    omega

theorem ids_nodup_of_create_texture {tm : TextureManager} {gen size : Nat} {tm2 : TextureManager}
    (hn : tm.ids.Nodup) (hf : tm.recycled.length = 0 → gen ∉ tm.ids)
    (ht : tm2.textures = tm.textures ++ [(tm.create_texture gen size).1])
    (hr : tm2.recycled = (tm.create_texture gen size).2.recycled) : tm2.ids.Nodup := by
  by_cases he : tm.recycled = []
  · have hg := hf (by simp [he])
    simp only [TextureManager.ids, ht, hr, TextureManager.create_texture_fst,
      TextureManager.create_texture_recycled, he, List.map_append, List.map_cons, List.map_nil,
      List.append_nil] at hn hg ⊢
    exact List.Nodup.append hn (List.nodup_singleton _) (by simpa using hg)
  · have p := ids_create_texture_perm tm gen size he
    unfold TextureManager.ids
    rw [ht, hr]
    exact p.nodup_iff.mpr hn

theorem ids_nodup {k : Nat} {tm : TextureManager} (h : ReachableFresh k tm) : tm.ids.Nodup := by
  induction h with
  | init => simp [TextureManager.new, TextureManager.ids]
  | step c _ hf hc ih =>
    cases c with
    | create gen glError internal_format width height format =>
      obtain ⟨r, hr, rfl⟩ := Option.map_eq_some'.mp hc
      obtain ⟨_, _, ht, hrec, _, _⟩ := TextureManager.create_some hr
      refine ids_nodup_of_create_texture ih (fun h0 => hf gen ?_) ht hrec
      simp [TMCall.generated, h0]
    | create_compressed gen glError format width height size =>
      obtain ⟨r, hr, rfl⟩ := Option.map_eq_some'.mp hc
      obtain ⟨_, _, ht, hrec, _, _⟩ := TextureManager.create_compressed_some hr
      refine ids_nodup_of_create_texture ih (fun h0 => hf gen ?_) ht hrec
      simp [TMCall.generated, h0]
    | remove id =>
      simp only [TMCall.apply, Option.some.injEq] at hc
      subst hc
      exact (ids_remove_perm _ id).nodup_iff.mpr ih

theorem remove_gl_countP (tm : TextureManager) (id : Nat) :
    (tm.remove id).gl.countP GLCall.isGenTextures = tm.gl.countP GLCall.isGenTextures := by
  unfold TextureManager.remove
  simp only
  split
  · simp [List.countP_append, TextureManager.bind_gl_countP, GLCall.isGenTextures]
  · rfl

theorem create_no_error (tm : TextureManager) (gen internal_format width height format : Nat) :
    ∃ r, tm.create gen GL_NO_ERROR internal_format width height format = some r := by
  simp [TextureManager.create]

theorem create_new : (TextureManager.new 2).create 1 GL_NO_ERROR GL_RGBA 64 64 GL_RGBA =
    some (1, oneTexture) := by
  simp only [TextureManager.create, TextureManager.create_texture, TextureManager.new,
    TextureManager.bind, oneTexture]
  norm_num
  rfl

theorem remove_oneTexture : oneTexture.remove 1 = oneRecycled := by
  have h : List.findIdx (fun t : TextureId => t.id == 1) [⟨1, 4096⟩] = 0 := by decide
  simp only [TextureManager.remove, oneTexture, oneRecycled, h, TextureManager.bind, qerase]
  norm_num

theorem reachable_oneRecycled : Reachable 2 oneRecycled :=
  .step (.remove 1)
    (.step (.create 1 GL_NO_ERROR GL_RGBA 64 64 GL_RGBA) .init
      (by rw [TMCall.apply, create_new]; rfl))
    (by rw [TMCall.apply, remove_oneTexture])

theorem reachableFresh_oneRecycled : ReachableFresh 2 oneRecycled :=
  .step (.remove 1)
    (.step (.create 1 GL_NO_ERROR GL_RGBA 64 64 GL_RGBA) .init
      (by simp [TMCall.generated, TextureManager.new, TextureManager.ids])
      (by rw [TMCall.apply, create_new]; rfl))
    (by simp [TMCall.generated])
    (by rw [TMCall.apply, remove_oneTexture])

/-! ### Claims about the texture manager -/

/-- Counterexample to C4 as stated. In the reachable state `twoRecycled` the
recycled list holds the names 1 and 2. `create` returns 1, `remove(1)` is called,
and the next `create` returns 2, not 1. -/
theorem recycled_handle_not_reused :
    (twoRecycled.bind fun tm =>
      (tm.create 3 GL_NO_ERROR GL_RGBA 64 64 GL_RGBA).bind fun r1 =>
        ((r1.2.remove r1.1).create 4 GL_NO_ERROR GL_RGBA 64 64 GL_RGBA).map fun r2 =>
          (r1.1, r2.1)) = some (1, 2) := by
  decide

/-- C4, amended. In every state of the texture manager: if `create(...)` returns
the handle `h` and `remove(h)` is called, then the next `create(...)` (of any
size, the backend reporting no error) returns a handle without asking the backend
for a fresh one (the log gains no `glGenTextures` call); the handle is `h` again
when the recycled list held at most one record before the first `create`. -/
theorem recycled_handle_reused (tm : TextureManager)
    (gen glError internal_format width height format h : Nat) (tm1 : TextureManager)
    (hc : tm.create gen glError internal_format width height format = some (h, tm1))
    (gen2 internal_format2 width2 height2 format2 : Nat) :
    ∃ h2 tm3,
      (tm1.remove h).create gen2 GL_NO_ERROR internal_format2 width2 height2 format2 =
        some (h2, tm3) ∧
      tm3.gl.countP GLCall.isGenTextures = tm1.gl.countP GLCall.isGenTextures ∧
      (tm.recycled.length ≤ 1 → h2 = h) := by
  obtain ⟨_, hh, ht, hrec, _, _⟩ := TextureManager.create_some hc
  simp only at hh ht hrec
  obtain ⟨r, hr⟩ := create_no_error (tm1.remove h) gen2 internal_format2 width2 height2 format2
  obtain ⟨_, h2eq, _, _, _, hgl⟩ := TextureManager.create_some hr
  rcases TextureManager.remove_cases tm1 h with ⟨hnone, _⟩ | ⟨i, hi, hid, _, hrr, _⟩
  · exfalso
    refine hnone (tm.create_texture gen (width * height % 2 ^ 32)).1 ?_ hh.symm
    rw [ht]
    simp
  · have hne : (tm1.remove h).recycled ≠ [] := by
      rw [hrr]
      simp
    refine ⟨r.1, r.2, hr, ?_, ?_⟩
    · rw [hgl, List.countP_append, TextureManager.create_texture_gl_countP _ _ _ hne,
        remove_gl_countP]
      simp [GLCall.isGenTextures]
    · intro hlen
      have h1 : tm1.recycled = [] := by
        rw [hrec, TextureManager.create_texture_recycled]
        match hr0 : tm.recycled with
        | [] => rfl
        | [r0] => simp [qerase]
        | _ :: _ :: _ =>
          rw [hr0] at hlen
          simp at hlen
      rw [h2eq, TextureManager.create_texture_fst, hrr, h1]
      exact hid

/-- Witness for C4: the first `create` on a new manager returns 1. -/
theorem recycled_handle_reused_witness :
    (TextureManager.new 2).create 1 GL_NO_ERROR GL_RGBA 64 64 GL_RGBA = some (1, oneTexture) ∧
    ∃ h2 tm3,
      (oneTexture.remove 1).create 2 GL_NO_ERROR GL_RGBA 128 128 GL_RGBA = some (h2, tm3) ∧
      tm3.gl.countP GLCall.isGenTextures = oneTexture.gl.countP GLCall.isGenTextures ∧
      ((TextureManager.new 2).recycled.length ≤ 1 → h2 = 1) :=
  ⟨create_new, recycled_handle_reused _ 1 GL_NO_ERROR GL_RGBA 64 64 GL_RGBA 1 oneTexture
    create_new 2 GL_RGBA 128 128 GL_RGBA⟩

/-- C5. In every state reachable from a new texture manager by `create`,
`create_compressed` and `remove`, `memory_usage` reports `used >= unused`, where
`unused` is the number of recycled records times `64 * 64 * 1e-6`, `used` is
`mem_used * 4e-6 + unused`, and `mem_used` is not negative. -/
theorem used_ge_unused (k : Nat) (tm : TextureManager) (h : Reachable k tm) :
    tm.memory_usage.2.1 ≤ tm.memory_usage.1 ∧
    tm.memory_usage.2.1 = (tm.recycled.length : ℚ) * 64 * 64 * (1 / 1000000) ∧
    tm.memory_usage.1 = tm.mem_used * (4 / 1000000) + tm.memory_usage.2.1 ∧
    0 ≤ tm.mem_used := by
  have h0 : 0 ≤ tm.mem_used := by
    rw [mem_used_eq_sizes h]
    exact sizes_nonneg _
  refine ⟨?_, ?_, rfl, h0⟩
  · simp only [TextureManager.memory_usage]
    have : 0 ≤ tm.mem_used * (4 / 1000000) := mul_nonneg h0 (by norm_num)
    linarith
  · simp only [TextureManager.memory_usage]
    push_cast
    ring

/-- Witness for C5: the state after one `create` and the `remove` of its handle. -/
theorem used_ge_unused_witness :
    Reachable 2 oneRecycled ∧
    (oneRecycled.memory_usage.2.1 ≤ oneRecycled.memory_usage.1 ∧
     oneRecycled.memory_usage.2.1 =
       (oneRecycled.recycled.length : ℚ) * 64 * 64 * (1 / 1000000) ∧
     oneRecycled.memory_usage.1 =
       oneRecycled.mem_used * (4 / 1000000) + oneRecycled.memory_usage.2.1 ∧
     0 ≤ oneRecycled.mem_used) :=
  ⟨reachable_oneRecycled, used_ge_unused 2 oneRecycled reachable_oneRecycled⟩

/-- C10. In every state reachable from a new texture manager by `create`,
`create_compressed` and `remove`, when the backend never generates a name the
manager holds: every name the manager holds occurs once in the active list and
not in the recycled list, or once in the recycled list and not in the active list. -/
theorem handle_in_exactly_one_list (k : Nat) (tm : TextureManager) (h : ReachableFresh k tm) :
    ∀ id ∈ tm.ids,
      ((tm.textures.map (fun t => t.id)).count id = 1 ∧
        (tm.recycled.map (fun t => t.id)).count id = 0) ∨
      ((tm.textures.map (fun t => t.id)).count id = 0 ∧
        (tm.recycled.map (fun t => t.id)).count id = 1) := by
  intro id hid
  have h1 := List.count_eq_one_of_mem (ids_nodup h) hid
  simp only [TextureManager.ids, List.count_append] at h1
  omega

/-- Witness for C10: the state after one `create` and the `remove` of its handle. -/
theorem handle_in_exactly_one_list_witness :
    ReachableFresh 2 oneRecycled ∧
    ∀ id ∈ oneRecycled.ids,
      ((oneRecycled.textures.map (fun t => t.id)).count id = 1 ∧
        (oneRecycled.recycled.map (fun t => t.id)).count id = 0) ∨
      ((oneRecycled.textures.map (fun t => t.id)).count id = 0 ∧
        (oneRecycled.recycled.map (fun t => t.id)).count id = 1) :=
  ⟨reachableFresh_oneRecycled, handle_in_exactly_one_list 2 oneRecycled reachableFresh_oneRecycled⟩

/-! ## Theorems: texture atlas -/

theorem int_add_eq {a b : Int} (h : IsInt (a + b)) : int_add a b = a + b := by
  unfold IsInt at h
  unfold int_add
  omega

/-- C6. `TextureAtlas::define(x, y, w, h)` on an atlas of width `W` and height `H`
succeeds if and only if `0 <= x`, `x + w <= W`, `0 <= y` and `y + h <= H`, and
fails (defining no region) otherwise, whenever the two `int` sums are
representable; the earlier `define_texture` of `src/TextureAtlas.cpp` validates in
the same way. -/
theorem define_succeeds_iff (a : TextureAtlas) (b : OnWire.TextureAtlas) (x y w h : Int)
    (hx : IsInt (x + w)) (hy : IsInt (y + h)) :
    ((a.define x y w h).isSome ↔ (0 ≤ x ∧ x + w ≤ a.width ∧ 0 ≤ y ∧ y + h ≤ a.height)) ∧
    ((a.define x y w h = none ↔ ¬ (0 ≤ x ∧ x + w ≤ a.width ∧ 0 ≤ y ∧ y + h ≤ a.height))) ∧
    ((b.define_texture x y w h).isSome ↔
      (0 ≤ x ∧ x + w ≤ b.texture_width ∧ 0 ≤ y ∧ y + h ≤ b.texture_height)) := by
  simp only [TextureAtlas.define, OnWire.TextureAtlas.define_texture, int_add_eq hx,
    int_add_eq hy, ge_iff_le]
  refine ⟨?_, ?_, ?_⟩
  · split <;> simp_all
  · split <;> simp_all
  · split <;> simp_all

/-- Witness for C6: on a 128x128 atlas `define(100,100,64,64)` fails and
`define(0,0,64,64)` succeeds. -/
theorem define_succeeds_iff_witness :
    IsInt (100 + 64) ∧ IsInt (100 + 64) ∧
    atlas128.define 100 100 64 64 = none ∧ (atlas128.define 0 0 64 64).isSome := by
  have h1 : IsInt (100 + 64) := by unfold IsInt; omega
  have h0 : IsInt (0 + 64) := by unfold IsInt; omega
  refine ⟨h1, h1, ?_, ?_⟩
  · exact (define_succeeds_iff atlas128 ⟨128, 128, []⟩ 100 100 64 64 h1 h1).2.1.mpr
      (by simp [atlas128])
  · exact (define_succeeds_iff atlas128 ⟨128, 128, []⟩ 0 0 64 64 h0 h0).1.mpr
      (by simp [atlas128])

/-- C7. On an atlas of size `W x H` (both positive) holding `n` regions, for `int`
arguments within the bounds, `TextureAtlas::define` returns `n` and leaves the
atlas with its `n` regions followed by one new region: the rectangle
`(x/W, y/H)-((x+w)/W, (y+h)/H)` tagged with the atlas's texture name. -/
theorem define_appends (a : TextureAtlas) (x y w h : Int)
    (hw : IsInt w) (hh : IsInt h) (hW : IsInt a.width) (hH : IsInt a.height)
    (hWpos : 0 < a.width) (hHpos : 0 < a.height)
    (hb : 0 ≤ x ∧ x + w ≤ a.width ∧ 0 ≤ y ∧ y + h ≤ a.height) :
    a.define x y w h = some (a.textures.length,
      { a with textures := a.textures ++
        [⟨a.name, (x : ℚ) / a.width, (y : ℚ) / a.height,
          ((x + w : Int) : ℚ) / a.width, ((y + h : Int) : ℚ) / a.height⟩] }) := by
  have hx : IsInt (x + w) := by unfold IsInt at *; omega
  have hy : IsInt (y + h) := by unfold IsInt at *; omega
  simp only [TextureAtlas.define, int_add_eq hx, int_add_eq hy, ge_iff_le, hb, and_self,
    if_true, Texture.new]


/-- Witness for C7: on a 128x128 atlas `define(0,0,64,64)` returns 0 with the
rectangle `(0,0)-(0.5,0.5)`, and `define(64,64,64,64)` then returns 1 with
`(0.5,0.5)-(1,1)`. -/
theorem define_appends_witness :
    (IsInt 64 ∧ IsInt 128 ∧ (0 : Int) < 128 ∧
      ((0 : Int) ≤ 0 ∧ (0 : Int) + 64 ≤ 128) ∧ ((0 : Int) ≤ 64 ∧ (64 : Int) + 64 ≤ 128)) ∧
    atlas128.define 0 0 64 64 = some (0, ⟨7, 128, 128, [⟨7, 0, 0, 1 / 2, 1 / 2⟩]⟩) ∧
    TextureAtlas.define ⟨7, 128, 128, [⟨7, 0, 0, 1 / 2, 1 / 2⟩]⟩ 64 64 64 64 =
      some (1, ⟨7, 128, 128, [⟨7, 0, 0, 1 / 2, 1 / 2⟩, ⟨7, 1 / 2, 1 / 2, 1, 1⟩]⟩) := by
  have h64 : IsInt 64 := by unfold IsInt; omega
  have h128 : IsInt 128 := by unfold IsInt; omega
  refine ⟨⟨h64, h128, by omega, by omega, by omega⟩, ?_, ?_⟩
  · rw [define_appends atlas128 0 0 64 64 h64 h64 h128 h128 (by decide) (by decide)
      (by decide)]
    simp only [atlas128]
    norm_num
  · rw [define_appends ⟨7, 128, 128, [⟨7, 0, 0, 1 / 2, 1 / 2⟩]⟩ 64 64 64 64 h64 h64 h128 h128
      (by decide) (by decide) (by decide)]
    norm_num

/-! ### Further claims about the texture manager -/

theorem remove_of_absent (tm : TextureManager) (id : Nat)
    (h : ∀ t ∈ tm.textures, t.id ≠ id) : tm.remove id = tm := by
  rcases TextureManager.remove_cases tm id with ⟨_, he⟩ | ⟨i, hi, hid, _, _, _⟩
  · exact he
  · exact absurd hid (h _ (List.get_mem _ _ _))

theorem absent_after_remove (tm : TextureManager) (id : Nat)
    (hn : (tm.textures.map (fun t => t.id)).Nodup) :
    ∀ t ∈ (tm.remove id).textures, t.id ≠ id := by
  rcases TextureManager.remove_cases tm id with ⟨hno, he⟩ | ⟨i, hi, hid, ht, _, _⟩
  · rw [he]
    exact hno
  · have p := (qerase_cons_perm tm.textures i hi).map (fun t => t.id)
    have hn2 := p.nodup_iff.mpr hn
    simp only [List.map_cons, List.nodup_cons, List.mem_map, not_exists, not_and] at hn2
    intro t htm heq
    rw [ht] at htm
    exact hn2.1 t htm (heq.trans hid.symm)

/-- C11. `TextureManager::remove(id)` with an `id` that no record of the active list
carries is a no-op: the manager is left exactly as it was (active list, recycled
list, `mem_used`, `mem_peak`, the bound-handle table and the log of backend calls).
When no name occurs twice in the active list, a second `remove` of the same handle
changes nothing. -/
theorem remove_absent_noop (tm : TextureManager) (id : Nat) :
    ((∀ t ∈ tm.textures, t.id ≠ id) → tm.remove id = tm) ∧
    ((tm.textures.map (fun t => t.id)).Nodup → (tm.remove id).remove id = tm.remove id) :=
  ⟨remove_of_absent tm id, fun hn => remove_of_absent _ id (absent_after_remove tm id hn)⟩

/-- Witness for C11: removing the name 5, never allocated, from `oneTexture`, and
removing the name 1 twice. -/
theorem remove_absent_noop_witness :
    (∀ t ∈ oneTexture.textures, t.id ≠ 5) ∧ oneTexture.remove 5 = oneTexture ∧
    (oneTexture.textures.map (fun t => t.id)).Nodup ∧
    (oneTexture.remove 1).remove 1 = oneTexture.remove 1 :=
  ⟨by decide, (remove_absent_noop oneTexture 5).1 (by decide), by decide,
    (remove_absent_noop oneTexture 1).2 (by decide)⟩

/-- C12. In every state reachable from a new texture manager by `create`,
`create_compressed` and `remove`, `mem_used` is the sum of the sizes recorded in the
active list. `create` appends the record of the returned handle with the size
`width * height` and raises `mem_used` by it; `remove(h)` of an active handle takes
a record named `h` out of the active list, appends that same record to the recycled
list and lowers `mem_used` by the size it records. -/
theorem mem_used_accounting (k : Nat) (tm : TextureManager) (hr : Reachable k tm) :
    tm.mem_used = sizes tm.textures ∧
    (∀ gen glError internal_format width height format r,
      tm.create gen glError internal_format width height format = some r →
        r.2.textures = tm.textures ++ [⟨r.1, width * height % 2 ^ 32⟩] ∧
        r.2.mem_used = tm.mem_used + ((width * height % 2 ^ 32 : Nat) : ℚ)) ∧
    (∀ id, (∃ t ∈ tm.textures, t.id = id) →
      ∃ t ∈ tm.textures, t.id = id ∧
        (t :: (tm.remove id).textures).Perm tm.textures ∧
        (tm.remove id).recycled = tm.recycled ++ [t] ∧
        (tm.remove id).mem_used = tm.mem_used - t.sz ∧
        (tm.remove id).mem_used = sizes (tm.remove id).textures) := by
  refine ⟨mem_used_eq_sizes hr, ?_, ?_⟩
  · intro gen glError internal_format width height format r hc
    obtain ⟨_, h1, ht, _, hm, _⟩ := TextureManager.create_some hc
    rw [ht, hm, TextureManager.create_texture_mem_used, h1,
      TextureManager.create_texture_fst]
    exact ⟨rfl, rfl⟩
  · rintro id ⟨t, ht, hid⟩
    rcases TextureManager.remove_cases tm id with ⟨hno, _⟩ | ⟨i, hi, hid2, htx, hrec, hm⟩
    · exact absurd hid (hno t ht)
    · refine ⟨tm.textures.get ⟨i, hi⟩, List.get_mem _ _ _, hid2, ?_, hrec, hm, ?_⟩
      · rw [htx]
        exact qerase_cons_perm tm.textures i hi
      · exact mem_used_eq_sizes (Reachable.step (.remove id) hr rfl)

/-- Witness for C12: the state after one `create`. -/
theorem mem_used_accounting_witness :
    Reachable 2 oneTexture ∧ oneTexture.mem_used = sizes oneTexture.textures :=
  have h : Reachable 2 oneTexture :=
    .step (.create 1 GL_NO_ERROR GL_RGBA 64 64 GL_RGBA) .init
      (by rw [TMCall.apply, create_new]; rfl)
  ⟨h, (mem_used_accounting 2 oneTexture h).1⟩

theorem getD_set_self (l : List Nat) (u id : Nat) (h : u < l.length) :
    (l.set u id).getD u 0 = id := by
  simp [List.getD_eq_getElem?_getD, List.getElem?_set, h]

theorem getD_set_other (l : List Nat) (u v id : Nat) (h : v ≠ u) :
    (l.set u id).getD v 0 = l.getD v 0 := by
  simp [List.getD_eq_getElem?_getD, List.getElem?_set, Ne.symm h]

/-- C13. `bind(id)` and `bind(id, unit)` leave the manager as it is, issuing no
backend call, when `id` is the handle recorded for the unit (unit 0 for the
one-argument form). Otherwise they issue their backend calls, record `id` for that
unit and leave the entry of every other unit, and every other field, unchanged. -/
theorem bind_records_unit (tm : TextureManager) (id unit : Nat)
    (h0 : 0 < tm.active.length) (hu : unit < tm.active.length) :
    (id = tm.active.getD 0 0 → tm.bind id = tm) ∧
    (id ≠ tm.active.getD 0 0 →
      (tm.bind id).active.getD 0 0 = id ∧
      (∀ v, v ≠ 0 → (tm.bind id).active.getD v 0 = tm.active.getD v 0) ∧
      (tm.bind id).gl = tm.gl ++ [GLCall.glBindTexture GL_TEXTURE_2D id] ∧
      { tm.bind id with active := tm.active, gl := tm.gl } = tm) ∧
    (id = tm.active.getD unit 0 → tm.bind_unit id unit = some tm) ∧
    (id ≠ tm.active.getD unit 0 →
      ∃ tm2, tm.bind_unit id unit = some tm2 ∧
        tm2.active.getD unit 0 = id ∧
        (∀ v, v ≠ unit → tm2.active.getD v 0 = tm.active.getD v 0) ∧
        tm2.gl = tm.gl ++ [GLCall.glActiveTexture (GL_TEXTURE0 + unit),
          GLCall.glBindTexture GL_TEXTURE_2D id, GLCall.glActiveTexture GL_TEXTURE0] ∧
        { tm2 with active := tm.active, gl := tm.gl } = tm) := by
  refine ⟨?_, ?_, ?_, ?_⟩
  · intro h
    simp [TextureManager.bind, h]
  · intro h
    have e : tm.bind id = { tm with gl := tm.gl ++ [GLCall.glBindTexture GL_TEXTURE_2D id],
                                    active := tm.active.set 0 id } := by
      simp only [TextureManager.bind, if_neg h]
    rw [e]
    exact ⟨getD_set_self _ _ _ h0, fun v hv => getD_set_other _ _ _ _ hv, rfl, rfl⟩
  · intro h
    simp [TextureManager.bind_unit, hu, h]
  · intro h
    have e : tm.bind_unit id unit =
        some { tm with gl := tm.gl ++ [GLCall.glActiveTexture (GL_TEXTURE0 + unit),
                                       GLCall.glBindTexture GL_TEXTURE_2D id,
                                       GLCall.glActiveTexture GL_TEXTURE0],
                       active := tm.active.set unit id } := by
      simp only [TextureManager.bind_unit, if_pos hu, if_neg h]
    exact ⟨_, e, getD_set_self _ _ _ hu, fun v hv => getD_set_other _ _ _ _ hv, rfl, rfl⟩

/-- Witness for C13: binding on `oneTexture`, whose unit 0 has the name 1 bound, with
the second unit addressed. -/
theorem bind_records_unit_witness :
    0 < oneTexture.active.length ∧ 1 < oneTexture.active.length ∧
    oneTexture.bind 1 = oneTexture ∧ (oneTexture.bind 3).active.getD 0 0 = 3 ∧
    oneTexture.bind_unit 0 1 = some oneTexture :=
  have h := bind_records_unit oneTexture 1 1 (by decide) (by decide)
  have h3 := bind_records_unit oneTexture 3 1 (by decide) (by decide)
  have h0 := bind_records_unit oneTexture 0 1 (by decide) (by decide)
  ⟨by decide, by decide, h.1 (by decide), (h3.2.1 (by decide)).1, h0.2.2.1 (by decide)⟩

/-! ### Further claims about the sprite -/

/-- C14. `Sprite::set_scale` fails validation exactly when a factor is zero or
negative: the uniform overload fails iff `f <= 0`, the `Vec2f` overload iff
`f.x <= 0` or `f.y <= 0`, and a failed call yields no modified sprite. On success
the scale is the given factors, the transform-dirty bit is set and nothing else
changes. -/
theorem set_scale_validation (s : Sprite) (f : ℚ) (v : Vec2f) :
    (s.set_scale f = none ↔ f ≤ 0) ∧
    (0 < f → s.set_scale f =
      some { s with scale_ := ⟨f, f⟩, stale_ := s.stale_ ||| kStaleBuffer }) ∧
    (s.set_scale_vec v = none ↔ (v.x ≤ 0 ∨ v.y ≤ 0)) ∧
    (0 < v.x ∧ 0 < v.y → s.set_scale_vec v =
      some { s with scale_ := v, stale_ := s.stale_ ||| kStaleBuffer }) ∧
    (s.stale_ ||| kStaleBuffer) &&& kStaleBuffer ≠ 0 := by
  refine ⟨?_, ?_, ?_, ?_, or_buffer_buffer s.stale_⟩
  · unfold Sprite.set_scale
    split
    · simp only [reduceCtorEq, false_iff, not_le]
      assumption
    · simp only [true_iff]
      exact le_of_not_lt ‹_›
  · intro h
    simp [Sprite.set_scale, h]
  · unfold Sprite.set_scale_vec
    split
    · rename_i h
      simp only [reduceCtorEq, false_iff, not_or, not_le]
      exact h
    · rename_i h
      simp only [true_iff]
      by_contra hc
      simp only [not_or, not_le] at hc
      exact h hc
  · intro h
    simp [Sprite.set_scale_vec, h]

/-- Witness for C14: the 10x20 sprite scaled by 2 and by `(2, 3)`. -/
theorem set_scale_validation_witness :
    (0 : ℚ) < 2 ∧ ((0 : ℚ) < 2 ∧ (0 : ℚ) < 3) ∧
    sprite10x20.set_scale 2 =
      some { sprite10x20 with scale_ := ⟨2, 2⟩, stale_ := sprite10x20.stale_ ||| kStaleBuffer } ∧
    sprite10x20.set_scale_vec ⟨2, 3⟩ =
      some { sprite10x20 with scale_ := ⟨2, 3⟩, stale_ := sprite10x20.stale_ ||| kStaleBuffer } ∧
    sprite10x20.set_scale 0 = none :=
  have h := set_scale_validation sprite10x20 2 ⟨2, 3⟩
  ⟨by norm_num, by norm_num, h.2.1 (by norm_num), h.2.2.2.1 (by norm_num),
    (set_scale_validation sprite10x20 0 ⟨2, 3⟩).1.mpr (le_refl 0)⟩

/-- C15. `Sprite::set_pivot(p)` fails validation if and only if `p.x` or `p.y` lies
outside the closed interval `[0,1]`; a failed call yields no modified sprite, so
pivot, position and centre stay as they were. -/
theorem set_pivot_validation (s : Sprite) (p : Vec2f) :
    (s.set_pivot p = none ↔ (p.x < 0 ∨ 1 < p.x ∨ p.y < 0 ∨ 1 < p.y)) ∧
    ((s.set_pivot p).isSome ↔ (0 ≤ p.x ∧ p.x ≤ 1 ∧ 0 ≤ p.y ∧ p.y ≤ 1)) := by
  by_cases h : p.x ≥ 0 ∧ p.x ≤ 1 ∧ p.y ≥ 0 ∧ p.y ≤ 1
  · have hs : (s.set_pivot p).isSome = true := by
      simp only [Sprite.set_pivot, if_pos h]
      split <;> rfl
    have hn : s.set_pivot p ≠ none := by
      intro e
      rw [e] at hs
      exact absurd hs (by decide)
    obtain ⟨h1, h2, h3, h4⟩ := h
    refine ⟨⟨fun e => absurd e hn, ?_⟩, ⟨fun _ => ⟨h1, h2, h3, h4⟩, fun _ => hs⟩⟩
    rintro (h | h | h | h) <;> linarith
  · have hn : s.set_pivot p = none := by simp only [Sprite.set_pivot, if_neg h]
    refine ⟨⟨fun _ => ?_, fun _ => hn⟩, ⟨fun e => ?_, fun e => absurd e h⟩⟩
    · by_contra hc
      simp only [not_or, not_lt] at hc
      exact h ⟨hc.1, hc.2.1, hc.2.2.1, hc.2.2.2⟩
    · rw [hn] at e
      exact absurd e (by decide)

/-- C16. Neither `Sprite::set_texture` nor `Sprite::mirror` touches geometry. After
`set_texture(id)` the four texture coordinates are the four of region `id`, in
order; after `mirror()` texture coordinates 0 and 1 are exchanged and 2 and 3 are
exchanged. In both cases the four positions and colours are unchanged, and so is
every field outside the vertex slice (position, centre, pivot, angle, scale, dirty
bits). -/
theorem texture_calls_keep_geometry (vx : Texture → Vec2f × Vec2f × Vec2f × Vec2f)
    (textures : List Texture) (s : Sprite) (id : Nat) :
    (∀ tx, textures[id]? = some tx →
      ∃ t, s.set_texture vx textures id = some t ∧
        t.texcoords = vx tx ∧ t.positions = s.positions ∧ t.colors = s.colors ∧
        { t with vertex_array_ := s.vertex_array_ } = s) ∧
    (s.mirror.texcoords =
        (s.texcoords.2.1, s.texcoords.1, s.texcoords.2.2.2, s.texcoords.2.2.1) ∧
      s.mirror.positions = s.positions ∧ s.mirror.colors = s.colors ∧
      { s.mirror with vertex_array_ := s.vertex_array_ } = s) := by
  refine ⟨?_, rfl, rfl, rfl, rfl⟩
  intro tx h
  simp only [Sprite.set_texture, h]
  exact ⟨_, rfl, rfl, rfl, rfl, rfl⟩

/-- Witness for C16: the 10x20 sprite takes region 0 of an atlas with one region. -/
theorem texture_calls_keep_geometry_witness :
    ([⟨7, 0, 0, 1 / 2, 1 / 2⟩] : List Texture)[0]? = some ⟨7, 0, 0, 1 / 2, 1 / 2⟩ ∧
    ∃ t, sprite10x20.set_texture cornersOf [⟨7, 0, 0, 1 / 2, 1 / 2⟩] 0 = some t ∧
      t.texcoords = cornersOf ⟨7, 0, 0, 1 / 2, 1 / 2⟩ ∧ t.positions = sprite10x20.positions ∧
      t.colors = sprite10x20.colors ∧
      { t with vertex_array_ := sprite10x20.vertex_array_ } = sprite10x20 :=
  ⟨rfl, (texture_calls_keep_geometry cornersOf [⟨7, 0, 0, 1 / 2, 1 / 2⟩] sprite10x20 0).1 _ rfl⟩

theorem circle_identity (a : ℚ) : circleCos a ^ 2 + circleSin a ^ 2 = 1 := by
  have h : (1 + a * a) ≠ 0 := by nlinarith [mul_self_nonneg a]
  unfold circleCos circleSin
  field_simp
  ring

/-- C17. For a sprite of positive width and height and positive scale, with
`cos^2 + sin^2 = 1` at the angle used, the four positions the full-recompute branch
of `update()` writes form a parallelogram (`v0 + v2 = v1 + v3`) traversed
counter-clockwise: the cross product of `v1 - v0` and `v3 - v0` is
`width * height * scale.x * scale.y > 0`, and the triangles `(0,1,2)` and `(2,3,0)`
have that same positive orientation. At angle 0 vertex 0 is bottom-left, 1
bottom-right, 2 top-right and 3 top-left. -/
theorem update_buffer_winding (cosf sinf : ℚ → ℚ) (s : Sprite)
    (hw : 0 < s.width_) (hh : 0 < s.height_) (hsx : 0 < s.scale_.x) (hsy : 0 < s.scale_.y)
    (htrig : s.angle_ ≠ 0 → cosf (-s.angle_) ^ 2 + sinf (-s.angle_) ^ 2 = 1) :
    let q := (Sprite.update_buffer cosf sinf s).positions
    q.1.add q.2.2.1 = q.2.1.add q.2.2.2 ∧
    cross (q.2.1.sub q.1) (q.2.2.2.sub q.1) =
      (s.width_ : ℚ) * s.height_ * s.scale_.x * s.scale_.y ∧
    0 < (s.width_ : ℚ) * s.height_ * s.scale_.x * s.scale_.y ∧
    cross (q.2.1.sub q.1) (q.2.2.1.sub q.1) =
      (s.width_ : ℚ) * s.height_ * s.scale_.x * s.scale_.y ∧
    cross (q.2.2.2.sub q.2.2.1) (q.1.sub q.2.2.1) =
      (s.width_ : ℚ) * s.height_ * s.scale_.x * s.scale_.y ∧
    (s.angle_ = 0 →
      q.1.x < q.2.1.x ∧ q.1.y = q.2.1.y ∧ q.2.1.x = q.2.2.1.x ∧ q.2.1.y < q.2.2.1.y ∧
      q.2.2.2.x = q.1.x ∧ q.2.2.2.y = q.2.2.1.y) := by
  have hW : (0 : ℚ) < s.width_ := Nat.cast_pos.mpr hw
  have hH : (0 : ℚ) < s.height_ := Nat.cast_pos.mpr hh
  have hpos : 0 < (s.width_ : ℚ) * s.height_ * s.scale_.x * s.scale_.y := by positivity
  by_cases ha : s.angle_ = 0
  · have heq : equal s.angle_ 0 = true := by simp [equal, ha]
    simp only [Sprite.update_buffer, Sprite.positions, heq, not_true_eq_false, if_false,
      transform_st, Vec2f.add, Vec2f.sub, cross, Vec2f.mk.injEq]
    refine ⟨⟨by ring, trivial⟩, by ring, hpos, by ring, by ring, fun _ => ?_⟩
    refine ⟨?_, trivial, trivial, ?_, trivial, trivial⟩
    · nlinarith
    · nlinarith
  · have heq : equal s.angle_ 0 = false := by simp [equal, ha]
    have ht := htrig ha
    simp only [Sprite.update_buffer, Sprite.positions, heq, Bool.false_eq_true,
      not_false_eq_true, if_true, transform_rst, Vec2f.add, Vec2f.sub, cross, Vec2f.mk.injEq]
    refine ⟨⟨by ring, by ring⟩, ?_, hpos, ?_, ?_, fun h => absurd h ha⟩
    · linear_combination (s.width_ : ℚ) * s.height_ * s.scale_.x * s.scale_.y * ht
    · linear_combination (s.width_ : ℚ) * s.height_ * s.scale_.x * s.scale_.y * ht
    · linear_combination (s.width_ : ℚ) * s.height_ * s.scale_.x * s.scale_.y * ht

/-- Witness for C17: a 10x20 sprite turned by half a radian, with `circleCos` and
`circleSin` in the place of `cosf` and `sinf`. -/
theorem update_buffer_winding_witness :
    0 < ((Sprite.new 10 20 VertexArray.zero ⟨0, 0⟩).set_rotation (1 / 2)).width_ ∧
    cross
      (((Sprite.update_buffer circleCos circleSin
          ((Sprite.new 10 20 VertexArray.zero ⟨0, 0⟩).set_rotation (1 / 2))).positions.2.1).sub
        (Sprite.update_buffer circleCos circleSin
          ((Sprite.new 10 20 VertexArray.zero ⟨0, 0⟩).set_rotation (1 / 2))).positions.1)
      (((Sprite.update_buffer circleCos circleSin
          ((Sprite.new 10 20 VertexArray.zero ⟨0, 0⟩).set_rotation (1 / 2))).positions.2.2.2).sub
        (Sprite.update_buffer circleCos circleSin
          ((Sprite.new 10 20 VertexArray.zero ⟨0, 0⟩).set_rotation (1 / 2))).positions.1) =
      ((10 : Nat) : ℚ) * (20 : Nat) * 1 * 1 :=
  ⟨by decide,
    (update_buffer_winding circleCos circleSin
      ((Sprite.new 10 20 VertexArray.zero ⟨0, 0⟩).set_rotation (1 / 2))
      (by decide) (by decide) (by simp [Sprite.set_rotation, Sprite.new])
      (by simp [Sprite.set_rotation, Sprite.new]) (fun _ => circle_identity _)).2.1⟩

/-! ## Theorems: renderer -/

theorem draw_disabled (program : Int) (type : NodeType) (payload : Nat) (children : List Node) :
    draw (.mk false program type payload children) = [] := by
  simp [draw]

theorem draw_enabled (program : Int) (type : NodeType) (payload : Nat) (children : List Node) :
    draw (.mk true program type payload children) =
      [RenderCall.context_begin] ++ (if program ≥ 0 then [RenderCall.use program] else []) ++
        dispatch type payload ++ draw_children children ++ [RenderCall.context_end] := by
  simp [draw]

theorem filter_use (program : Int) :
    (if program ≥ 0 then [RenderCall.use program] else []).filter (fun c => !c.isContext) =
      (if program ≥ 0 then [RenderCall.use program] else []) := by
  split <;> simp [RenderCall.isContext]

theorem filter_dispatch (type : NodeType) (payload : Nat) :
    (dispatch type payload).filter (fun c => !c.isContext) = dispatch type payload := by
  cases type <;> simp [dispatch, RenderCall.isContext]

mutual
theorem draw_eq_visited (n : Node) :
    (draw n).filter (fun c => !c.isContext) =
      (match n.prune with
       | none => []
       | some m => m.preorder).flatMap Node.own := by
  match n with
  | .mk false program type payload children =>
    rw [draw_disabled]
    simp [Node.prune]
  | .mk true program type payload children =>
    have ih := draw_children_eq_visited children
    rw [draw_enabled]
    simp only [List.filter_append, filter_use, filter_dispatch, ih]
    simp [Node.prune, Node.preorder, Node.own, RenderCall.isContext]
theorem draw_children_eq_visited (l : List Node) :
    (draw_children l).filter (fun c => !c.isContext) =
      (preorder_children (prune_children l)).flatMap Node.own := by
  match l with
  | [] => simp [draw_children, prune_children, preorder_children]
  | child :: rest =>
    have ih1 := draw_eq_visited child
    have ih2 := draw_children_eq_visited rest
    simp only [draw_children, prune_children, List.filter_append, ih1, ih2]
    cases child.prune with
    | none => simp
    | some c => simp [preorder_children, List.flatMap_append]
end

theorem quadBlocks_one (i : Nat) : quadBlocks 1 i = quadIndices i := by
  have e : List.range 1 = [0] := rfl
  simp [quadBlocks, e]

theorem S1_eq (i : Nat) : S1 i = quadBlocks 1 i := by
  rw [quadBlocks_one]
  simp [S1, S0, quadIndices, Nat.mul_comm]

theorem quadBlocks_add (a b i : Nat) :
    quadBlocks (a + b) i = quadBlocks a i ++ quadBlocks b (i + a) := by
  simp only [quadBlocks, List.range_add, List.flatMap_append, List.flatMap_map, Nat.add_assoc]

theorem quadBlocks_four (n i : Nat) :
    quadBlocks (4 * n) i =
      quadBlocks n i ++ quadBlocks n (i + n) ++ quadBlocks n (i + 2 * n) ++
        quadBlocks n (i + 3 * n) := by
  have e : 4 * n = n + n + n + n := by omega
  rw [e, quadBlocks_add, quadBlocks_add, quadBlocks_add]
  have e2 : i + 2 * n = i + n + n := by omega
  have e3 : i + 3 * n = i + (n + n + n) := by omega
  have e4 : i + (n + n) = i + n + n := by omega
  rw [e2, e3, e4]

theorem S4_eq (i : Nat) : S4 i = quadBlocks 4 i := by
  rw [S4, S1_eq, S1_eq, S1_eq, S1_eq, quadBlocks_four 1 i]

theorem S16_eq (i : Nat) : S16 i = quadBlocks 16 i := by
  rw [S16, S4_eq, S4_eq, S4_eq, S4_eq, quadBlocks_four 4 i]

theorem S64_eq (i : Nat) : S64 i = quadBlocks 64 i := by
  rw [S64, S16_eq, S16_eq, S16_eq, S16_eq, quadBlocks_four 16 i]

theorem S256_eq (i : Nat) : S256 i = quadBlocks 256 i := by
  rw [S256, S64_eq, S64_eq, S64_eq, S64_eq, quadBlocks_four 64 i]

theorem quadBlocks_length (n i : Nat) : (quadBlocks n i).length = n * 6 := by
  induction n with
  | zero => simp [quadBlocks]
  | succ n ih =>
    rw [quadBlocks_add, List.length_append, ih, quadBlocks_one]
    simp only [quadIndices, List.length_cons, List.length_nil]
    omega

theorem quadBlocks_slot (n i k : Nat) (h : k < n) :
    ((quadBlocks n i).drop (6 * k)).take 6 = quadIndices (i + k) := by
  induction n with
  | zero => omega
  | succ n ih =>
    have hlen := quadBlocks_length n i
    have hone : quadBlocks 1 (i + n) = quadIndices (i + n) := quadBlocks_one _
    rw [quadBlocks_add, hone]
    by_cases hk : k < n
    · rw [List.drop_append_of_le_length (by omega), List.take_append_of_le_length, ih hk]
      rw [List.length_drop]
      omega
    · have hkn : k = n := by omega
      subst hkn
      have e : 6 * k = (quadBlocks k i).length := by omega
      rw [e, List.drop_left]
      simp [quadIndices]

theorem quadBlocks_lt (n i : Nat) : ∀ v ∈ quadBlocks n i, v < 4 * (i + n) := by
  intro v hv
  simp only [quadBlocks, List.mem_flatMap, List.mem_range, quadIndices, List.mem_cons,
    List.mem_singleton, List.not_mem_nil, or_false] at hv
  obtain ⟨j, hj, hv⟩ := hv
  omega

theorem kDefaultIndices_eq : kDefaultIndices = quadBlocks 256 0 := by
  rw [kDefaultIndices, S256_eq]
  have e : (quadBlocks 256 0).map (fun v => v % 2 ^ 16) = (quadBlocks 256 0).map id := by
    apply List.map_congr_left
    intro v hv
    have := quadBlocks_lt 256 0 v hv
    simp only [id]
    omega
  rw [e, List.map_id]

/-! ### Claims about the renderer -/

/-- C18. `Renderer::draw(node)` is a total function of the (finite) scene tree. A
disabled node causes no call at all: no program selection, no dispatch, no visit of
a descendant. An enabled node selects its program when `program >= 0`, dispatches
its own drawable and only then draws its children in their stored order. Leaving
the construction and destruction of the shader context aside, the calls made are
those of the nodes of the tree pruned at disabled nodes, taken in pre-order. -/
theorem draw_preorder (n : Node) (program : Int) (type : NodeType) (payload : Nat)
    (child : Node) (children : List Node) :
    draw (.mk false program type payload children) = [] ∧
    draw (.mk true program type payload children) =
      [RenderCall.context_begin] ++ (if program ≥ 0 then [RenderCall.use program] else []) ++
        dispatch type payload ++ draw_children children ++ [RenderCall.context_end] ∧
    draw_children [] = [] ∧
    draw_children (child :: children) = draw child ++ draw_children children ∧
    (draw n).filter (fun c => !c.isContext) = n.visited.flatMap Node.own ∧
    draw scene =
      [.context_begin, .use 3, .draw_label 7,
        .context_begin, .draw_sprite_batch 9, .context_end, .context_end] := by
  refine ⟨draw_disabled _ _ _ _, draw_enabled _ _ _ _, ?_, ?_, ?_, by decide⟩
  · simp [draw_children]
  · simp [draw_children]
  · rw [draw_eq_visited]
    rfl

/-- C19. The static index buffer `kDefaultIndices` built in `Renderer::init` has
exactly `256 * 6` entries; for every sprite slot `i < 256` the entries at positions
`6i .. 6i+5` are `4i, 4i+1, 4i+2, 4i+2, 4i+3, 4i`; no entry is changed by the
conversion to `unsigned short`, every entry being below `2^16`. -/
theorem index_buffer_pattern :
    kDefaultIndices.length = kNumSprites * 6 ∧
    kNumSprites = 256 ∧
    (∀ i, i < 256 →
      (kDefaultIndices.drop (6 * i)).take 6 =
        [4 * i, 4 * i + 1, 4 * i + 2, 4 * i + 2, 4 * i + 3, 4 * i]) ∧
    kDefaultIndices = S256 0 ∧
    (∀ v ∈ kDefaultIndices, v < 2 ^ 16) := by
  refine ⟨?_, rfl, ?_, ?_, ?_⟩
  · rw [kDefaultIndices_eq, quadBlocks_length]
    rfl
  · intro i hi
    rw [kDefaultIndices_eq, quadBlocks_slot 256 0 i hi, Nat.zero_add]
    rfl
  · rw [kDefaultIndices_eq, S256_eq]
  · intro v hv
    rw [kDefaultIndices_eq] at hv
    have := quadBlocks_lt 256 0 v hv
    omega


/-- Witness for C19: the last sprite slot. -/
theorem index_buffer_pattern_witness :
    255 < 256 ∧
    (kDefaultIndices.drop (6 * 255)).take 6 = [1020, 1021, 1022, 1022, 1023, 1020] :=
  ⟨by decide, index_buffer_pattern.2.2.1 255 (by decide)⟩

/-! ### A further claim about the texture atlas -/

/-- With a non-negative width and height of the rectangle, what `define` accepts on
an atlas of positive size does lie in the unit square. -/
theorem define_within_unit_square (a : TextureAtlas) (x y w h : Int)
    (hx : IsInt (x + w)) (hy : IsInt (y + h)) (hW : 0 < a.width) (hH : 0 < a.height)
    (hw : 0 ≤ w) (hh : 0 ≤ h) (r : Nat × TextureAtlas) (hd : a.define x y w h = some r) :
    ∃ t, r.2.textures = a.textures ++ [t] ∧
      0 ≤ t.x0 ∧ t.x0 ≤ 1 ∧ 0 ≤ t.x1 ∧ t.x1 ≤ 1 ∧
      0 ≤ t.y0 ∧ t.y0 ≤ 1 ∧ 0 ≤ t.y1 ∧ t.y1 ≤ 1 := by
  simp only [TextureAtlas.define, int_add_eq hx, int_add_eq hy, Texture.new] at hd
  split at hd
  · rename_i hb
    obtain ⟨h1, h2, h3, h4⟩ := hb
    simp only [Option.some.injEq] at hd
    subst hd
    have hWq : (0 : ℚ) < a.width := by exact_mod_cast hW
    have hHq : (0 : ℚ) < a.height := by exact_mod_cast hH
    have x0 : (0 : ℚ) ≤ x := by exact_mod_cast h1
    have y0 : (0 : ℚ) ≤ y := by exact_mod_cast h3
    have xw : ((x + w : Int) : ℚ) ≤ a.width := by exact_mod_cast h2
    have yh : ((y + h : Int) : ℚ) ≤ a.height := by exact_mod_cast h4
    have xw0 : (0 : ℚ) ≤ ((x + w : Int) : ℚ) := by exact_mod_cast (by omega : 0 ≤ x + w)
    have yh0 : (0 : ℚ) ≤ ((y + h : Int) : ℚ) := by exact_mod_cast (by omega : 0 ≤ y + h)
    have xW : (x : ℚ) ≤ a.width := by exact_mod_cast (by omega : x ≤ a.width)
    have yH : (y : ℚ) ≤ a.height := by exact_mod_cast (by omega : y ≤ a.height)
    refine ⟨_, rfl, ?_, ?_, ?_, ?_, ?_, ?_, ?_, ?_⟩
    · exact div_nonneg x0 hWq.le
    · exact (div_le_one hWq).mpr xW
    · exact div_nonneg xw0 hWq.le
    · exact (div_le_one hWq).mpr xw
    · exact div_nonneg y0 hHq.le
    · exact (div_le_one hHq).mpr yH
    · exact div_nonneg yh0 hHq.le
    · exact (div_le_one hHq).mpr yh
  · exact absurd hd (by simp)

/-- C20, evaluated at an input where it fails. On a 128x128 atlas
`define(200, 0, -100, 64)` passes validation (`0 <= 200`, `200 - 100 <= 128`) and
stores a region whose `x0` is `200/128 = 25/16`, outside the unit square. -/
theorem define_accepts_outside_unit_square :
    atlas128.define 200 0 (-100) 64 =
      some (0, ⟨7, 128, 128, [⟨7, 25 / 16, 0, 25 / 32, 1 / 2⟩]⟩) ∧
    (1 : ℚ) < 25 / 16 := by
  constructor
  · simp only [TextureAtlas.define, atlas128, int_add, Texture.new]
    norm_num
  · norm_num

/-! ### Claims about the sprite state machine -/

theorem update_stale (cosf sinf : ℚ → ℚ) (s : Sprite) : (s.update cosf sinf).stale_ = 0 := by
  unfold Sprite.update
  split
  · assumption
  · split
    · exact Sprite.update_buffer_stale cosf sinf s
    · rfl

theorem position_clear_of_lt {x : Nat} (hb : x &&& kStaleBuffer = 0)
    (hp : x &&& kStalePosition = 0) (h4 : x < 4) : x = 0 := by
  have h : ∀ y, y < 4 → y &&& kStaleBuffer = 0 → y &&& kStalePosition = 0 → y = 0 := by decide
  exact h x h4 hb hp

/-- C21. `Sprite::update` leaves both dirty bits clear (the whole of `stale_` is 0),
is a no-op on a clean sprite (no vertex position, texture coordinate or colour and
no pose field changes), and two consecutive `update()` calls give the same state as
one. A sprite that uses no other bit of `stale_` than the two dirty bits is clean
exactly when both are clear. -/
theorem update_idempotent (cosf sinf : ℚ → ℚ) (s : Sprite) :
    (s.update cosf sinf).stale_ = 0 ∧
    (s.update cosf sinf).stale_ &&& kStaleBuffer = 0 ∧
    (s.update cosf sinf).stale_ &&& kStalePosition = 0 ∧
    (s.stale_ = 0 → s.update cosf sinf = s) ∧
    (s.stale_ < 4 → s.stale_ &&& kStaleBuffer = 0 → s.stale_ &&& kStalePosition = 0 →
      s.update cosf sinf = s) ∧
    (s.update cosf sinf).update cosf sinf = s.update cosf sinf := by
  have h0 := update_stale cosf sinf s
  have hclean : s.stale_ = 0 → s.update cosf sinf = s := by
    intro h
    simp [Sprite.update, h]
  refine ⟨h0, by rw [h0]; decide, by rw [h0]; decide, hclean, ?_, Sprite.update_idem cosf sinf s⟩
  intro h4 hb hp
  exact hclean (position_clear_of_lt hb hp h4)

/-- Witness for C21: the updated 10x20 sprite is clean and a further update leaves it
as it is. -/
theorem update_idempotent_witness :
    sprite10x20.stale_ = 0 ∧ sprite10x20.update cosPoly sinPoly = sprite10x20 :=
  have h : sprite10x20.stale_ = 0 := by rw [sprite10x20_eq]
  ⟨h, (update_idempotent cosPoly sinPoly sprite10x20).2.2.2.1 h⟩

/-- C22. When the transform-dirty bit is set, `update()` writes for each corner `i`
the position `center + S * R(-angle) * o_i`, with `o_0 = (-width*pivot.x,
-height*(1 - pivot.y))`, `o_1 = o_0 + (width, 0)`, `o_2 = o_0 + (width, height)`,
`o_3 = o_0 + (0, height)`, `S = diag(scale.x, scale.y)` and `center` the position
when position-dirty is set too and the previous centre otherwise; that centre is
stored in `center_`. With `cos 0 = 1` and `sin 0 = 0` the zero-angle branch writes
what the formula gives at angle 0. -/
theorem update_full_transform (cosf sinf : ℚ → ℚ) (s : Sprite)
    (hb : s.stale_ &&& kStaleBuffer ≠ 0) (hc : cosf 0 = 1) (hs : sinf 0 = 0) :
    (s.update cosf sinf).positions =
      (s.placed cosf sinf s.pendingCenter s.corners.1,
       s.placed cosf sinf s.pendingCenter s.corners.2.1,
       s.placed cosf sinf s.pendingCenter s.corners.2.2.1,
       s.placed cosf sinf s.pendingCenter s.corners.2.2.2) ∧
    (s.update cosf sinf).center_ = s.pendingCenter ∧
    (s.angle_ = 0 →
      (s.update cosf sinf).positions =
        (s.pendingCenter.add (scale2 s.scale_ s.corners.1),
         s.pendingCenter.add (scale2 s.scale_ s.corners.2.1),
         s.pendingCenter.add (scale2 s.scale_ s.corners.2.2.1),
         s.pendingCenter.add (scale2 s.scale_ s.corners.2.2.2))) := by
  have hu : s.update cosf sinf = Sprite.update_buffer cosf sinf s := by
    simp [Sprite.update, ne_zero_of_buffer hb, hb]
  rw [hu]
  have hzero : s.angle_ = 0 →
      (Sprite.update_buffer cosf sinf s).positions =
        (s.pendingCenter.add (scale2 s.scale_ s.corners.1),
         s.pendingCenter.add (scale2 s.scale_ s.corners.2.1),
         s.pendingCenter.add (scale2 s.scale_ s.corners.2.2.1),
         s.pendingCenter.add (scale2 s.scale_ s.corners.2.2.2)) := by
    intro ha
    have heq : equal s.angle_ 0 = true := by simp [equal, ha]
    simp only [Sprite.update_buffer, Sprite.positions, heq, not_true_eq_false, if_false,
      transform_st, Sprite.corners, Sprite.pendingCenter, scale2,
      Vec2f.add, Prod.mk.injEq, Vec2f.mk.injEq]
    constructorm* _ ∧ _ <;> ring
  refine ⟨?_, Sprite.update_buffer_center cosf sinf s, hzero⟩
  by_cases ha : s.angle_ = 0
  · have hr : ∀ o : Vec2f, rotate2 (cosf (-s.angle_)) (sinf (-s.angle_)) o = o := by
      intro o
      simp [rotate2, ha, hc, hs]
    rw [hzero ha]
    simp only [Sprite.placed, hr]
  · have heq : equal s.angle_ 0 = false := by simp [equal, ha]
    simp only [Sprite.update_buffer, Sprite.positions, heq, Bool.false_eq_true,
      not_false_eq_true, if_true, transform_rst, Sprite.placed, Sprite.corners,
      Sprite.pendingCenter, rotate2, scale2, Vec2f.add, Prod.mk.injEq, Vec2f.mk.injEq]
    constructorm* _ ∧ _ <;> ring

/-- Witness for C22: the freshly constructed 10x20 sprite, with `circleCos` and
`circleSin` in the place of `cosf` and `sinf`. -/
theorem update_full_transform_witness :
    (Sprite.new 10 20 VertexArray.zero ⟨0, 0⟩).stale_ &&& kStaleBuffer ≠ 0 ∧
    circleCos 0 = 1 ∧ circleSin 0 = 0 ∧
    ((Sprite.new 10 20 VertexArray.zero ⟨0, 0⟩).update circleCos circleSin).center_ =
      (Sprite.new 10 20 VertexArray.zero ⟨0, 0⟩).pendingCenter :=
  ⟨by decide, by norm_num [circleCos], by norm_num [circleSin],
    (update_full_transform circleCos circleSin (Sprite.new 10 20 VertexArray.zero ⟨0, 0⟩)
      (by decide) (by norm_num [circleCos]) (by norm_num [circleSin])).2.1⟩

/-- Counterexample to C23 as stated. The clean 10x20 sprite has pivot `(0.5,0.5)`;
after `set_pivot((0.5,1))` the transform-dirty bit is still clear, and the next
`update()` leaves the four positions `(-5,-10), (5,-10), (5,10), (-5,10)` that were
computed for the old pivot. -/
theorem set_pivot_leaves_clean :
    (sprite10x20.set_pivot ⟨1 / 2, 1⟩).map
        (fun t => (t.pivot_, t.stale_ &&& kStaleBuffer,
          (Sprite.update cosPoly sinPoly t).positions)) =
      some (⟨1 / 2, 1⟩, 0, (⟨-5, -10⟩, ⟨5, -10⟩, ⟨5, 10⟩, ⟨-5, 10⟩)) := by
  rw [sprite10x20_set_pivot, sprite10x20_eq]
  simp [Sprite.update, Sprite.positions]

theorem set_pivot_some (s : Sprite) (p : Vec2f)
    (hp : p.x ≥ 0 ∧ p.x ≤ 1 ∧ p.y ≥ 0 ∧ p.y ≤ 1) :
    ∃ t, s.set_pivot p = some t ∧ t.stale_ = s.stale_ ∧ t.vertex_array_ = s.vertex_array_ ∧
      t.angle_ = s.angle_ ∧ t.scale_ = s.scale_ ∧ t.width_ = s.width_ ∧
      t.height_ = s.height_ ∧
      (s.center_ = s.position_ → t.center_ = t.position_) := by
  simp only [Sprite.set_pivot, if_pos hp]
  split
  · exact ⟨s, rfl, rfl, rfl, rfl, rfl, rfl, rfl, id⟩
  · refine ⟨_, rfl, rfl, rfl, rfl, rfl, rfl, rfl, ?_⟩
    intro h
    simp only [h]

/-- C23, amended. A pivot change marks nothing dirty: for every sprite and every
valid pivot `p`, `set_pivot(p)` succeeds and leaves `stale_` and the vertex slice as
they were; for a clean sprite the next `update()` is therefore a no-op and the four
vertex positions stay those of the slice before the call. -/
theorem set_pivot_keeps_dirty_bits (cosf sinf : ℚ → ℚ) (s : Sprite) (p : Vec2f)
    (hp : p.x ≥ 0 ∧ p.x ≤ 1 ∧ p.y ≥ 0 ∧ p.y ≤ 1) :
    ∃ t, s.set_pivot p = some t ∧ t.stale_ = s.stale_ ∧
      t.vertex_array_ = s.vertex_array_ ∧
      (s.stale_ = 0 → t.update cosf sinf = t ∧ (t.update cosf sinf).positions = s.positions) := by
  obtain ⟨t, ht, h1, h2, _⟩ := set_pivot_some s p hp
  refine ⟨t, ht, h1, h2, fun h0 => ?_⟩
  have hu : t.update cosf sinf = t := by
    simp [Sprite.update, h1, h0]
  rw [hu]
  exact ⟨rfl, by simp only [Sprite.positions, h2]⟩

/-- Witness for C23: the pivot of the clean 10x20 sprite is set to `(1,0)`. -/
theorem set_pivot_keeps_dirty_bits_witness :
    ((1 : ℚ) ≥ 0 ∧ (1 : ℚ) ≤ 1 ∧ (0 : ℚ) ≥ 0 ∧ (0 : ℚ) ≤ 1) ∧
    ∃ t, sprite10x20.set_pivot ⟨1, 0⟩ = some t ∧ t.stale_ = sprite10x20.stale_ ∧
      t.vertex_array_ = sprite10x20.vertex_array_ ∧
      (sprite10x20.stale_ = 0 →
        t.update cosPoly sinPoly = t ∧
        (t.update cosPoly sinPoly).positions = sprite10x20.positions) :=
  ⟨by norm_num, set_pivot_keeps_dirty_bits cosPoly sinPoly sprite10x20 ⟨1, 0⟩ (by norm_num)⟩

theorem update_position_eq (cosf sinf : ℚ → ℚ) (s : Sprite) :
    (s.update cosf sinf).position_ = s.position_ := by
  unfold Sprite.update
  split
  · rfl
  · split
    · exact Sprite.update_buffer_position cosf sinf s
    · exact Sprite.vec_add_sub s.center_ s.position_

theorem update_center_eq (cosf sinf : ℚ → ℚ) (s : Sprite)
    (h : s.stale_ &&& kStalePosition = 0 → s.center_ = s.position_) :
    (s.update cosf sinf).center_ = (s.update cosf sinf).position_ := by
  unfold Sprite.update
  split
  · rename_i h0
    exact h (by rw [h0]; decide)
  · split
    · rw [Sprite.update_buffer_center, Sprite.update_buffer_position]
      split
      · rfl
      · rename_i hp
        exact h (not_not.mp hp)
    · rfl

theorem center_eq_position_of_updated {cosf sinf : ℚ → ℚ} {s : Sprite}
    (h : Updated cosf sinf s) : s.stale_ &&& kStalePosition = 0 → s.center_ = s.position_ := by
  induction h with
  | first s hb hp =>
    intro _
    exact update_center_eq cosf sinf s (fun h0 => absurd h0 hp)
  | step c _ hc ih =>
    cases c with
    | set_position p =>
      simp only [SpriteCall.apply, Option.some.injEq] at hc
      subst hc
      intro h0
      exact absurd h0 (or_position_position _)
    | move delta =>
      simp only [SpriteCall.apply, Option.some.injEq] at hc
      subst hc
      unfold Sprite.move
      split
      · exact ih
      · intro h0
        exact absurd h0 (or_position_position _)
    | set_rotation r =>
      simp only [SpriteCall.apply, Option.some.injEq] at hc
      subst hc
      intro h0
      exact ih (not_not.mp (fun k => (or_buffer_position _).mpr k h0))
    | rotate r =>
      simp only [SpriteCall.apply, Option.some.injEq] at hc
      subst hc
      unfold Sprite.rotate
      split
      · exact ih
      · intro h0
        exact ih (not_not.mp (fun k => (or_buffer_position _).mpr k h0))
    | set_scale f =>
      simp only [SpriteCall.apply, Sprite.set_scale] at hc
      split at hc
      · simp only [Option.some.injEq] at hc
        subst hc
        intro h0
        exact ih (not_not.mp (fun k => (or_buffer_position _).mpr k h0))
      · exact absurd hc (by simp)
    | set_scale_vec f =>
      simp only [SpriteCall.apply, Sprite.set_scale_vec] at hc
      split at hc
      · simp only [Option.some.injEq] at hc
        subst hc
        intro h0
        exact ih (not_not.mp (fun k => (or_buffer_position _).mpr k h0))
      · exact absurd hc (by simp)
    | set_pivot p =>
      simp only [SpriteCall.apply] at hc
      by_cases hp : p.x ≥ 0 ∧ p.x ≤ 1 ∧ p.y ≥ 0 ∧ p.y ≤ 1
      · obtain ⟨t, ht, h1, _, _, _, _, _, h8⟩ := set_pivot_some _ p hp
        rw [ht, Option.some.injEq] at hc
        subst hc
        intro h0
        rw [h1] at h0
        exact h8 (ih h0)
      · simp [Sprite.set_pivot, hp] at hc
    | update =>
      simp only [SpriteCall.apply, Option.some.injEq] at hc
      subst hc
      intro _
      exact update_center_eq cosf sinf _ ih

/-- C25. In every state a sprite reaches from its first `update()` on, by
`set_position`, `move`, `set_rotation`, `rotate`, `set_scale`, `set_pivot` and
`update`, the rotation centre equals the position whenever the position-dirty bit
is clear; and `update()` never changes `position_`, the value returned for the
sprite's position. -/
theorem center_eq_position (cosf sinf : ℚ → ℚ) (s : Sprite) (h : Updated cosf sinf s) :
    (s.stale_ &&& kStalePosition = 0 → s.center_ = s.position_) ∧
    (s.update cosf sinf).position_ = s.position_ ∧
    (s.update cosf sinf).center_ = s.position_ :=
  ⟨center_eq_position_of_updated h, update_position_eq cosf sinf s,
    (update_center_eq cosf sinf s (center_eq_position_of_updated h)).trans
      (update_position_eq cosf sinf s)⟩

/-- Witness for C25: the 10x20 sprite after its first update, then moved. -/
theorem center_eq_position_witness :
    Updated cosPoly sinPoly (sprite10x20.move ⟨3, 4⟩) ∧
    ((sprite10x20.move ⟨3, 4⟩).update cosPoly sinPoly).position_ =
      (sprite10x20.move ⟨3, 4⟩).position_ :=
  have h : Updated cosPoly sinPoly (sprite10x20.move ⟨3, 4⟩) :=
    .step (.move ⟨3, 4⟩)
      (.first (Sprite.new 10 20 VertexArray.zero ⟨0, 0⟩) (by decide) (by decide)) rfl
  ⟨h, (center_eq_position cosPoly sinPoly _ h).2.1⟩

/-! ### Teardown of the texture manager -/

theorem words_even (t : List TextureId) (j : Nat) (h : j < t.length) :
    words t (2 * j) = (t.get ⟨j, h⟩).id := by
  have e : 2 * j / 2 = j := by omega
  have e2 : 2 * j % 2 = 0 := by omega
  simp [words, e, e2, List.getElem?_eq_getElem h]

/-- After `k` rounds the first `k` words hold the first `k` ids and every other
word is untouched. -/
theorem purge_loop_spec (mem : Nat → Nat) (k j : Nat) :
    purge_loop k mem j = if j < k then mem (2 * j) else mem j := by
  induction k generalizing j with
  | zero => simp [purge_loop]
  | succ k ih =>
    have e : purge_loop (k + 1) mem =
        Function.update (purge_loop k mem) k (purge_loop k mem (2 * k)) := by
      simp [purge_loop, List.range_succ, List.foldl_append]
    rw [e]
    by_cases hj : j = k
    · subst hj
      rw [Function.update_same, ih]
      by_cases h0 : 2 * j < j
      · omega
      · simp [h0]
    · rw [Function.update_noteq hj, ih]
      by_cases h1 : j < k
      · have : j < k + 1 := by omega
        simp [h1, this]
      · have : ¬ j < k + 1 := by omega
        simp [h1, this]

theorem purge_loop_ids (t : List TextureId) :
    (List.range t.length).map (purge_loop t.length (words t)) = t.map (fun r => r.id) := by
  apply List.ext_getElem
  · simp
  · intro j h1 h2
    simp only [List.length_map, List.length_range] at h1
    simp only [List.getElem_map, List.getElem_range, purge_loop_spec, if_pos h1]
    exact words_even t j h1

theorem purge_eq (tm : TextureManager) (t : List TextureId) :
    tm.purge t =
      if t.length = 0 then (tm, t)
      else ({ tm with gl := tm.gl ++
        [GLCall.glDeleteTextures t.length (t.map (fun r => r.id))] }, []) := by
  unfold TextureManager.purge
  split
  · rfl
  · simp only [purge_loop_ids]

theorem purge_deleted (tm : TextureManager) (t : List TextureId) :
    (tm.purge t).1.gl.flatMap GLCall.deleted =
      tm.gl.flatMap GLCall.deleted ++ t.map (fun r => r.id) ∧
    (tm.purge t).2 = [] ∧
    (tm.purge t).1.textures = tm.textures ∧ (tm.purge t).1.recycled = tm.recycled := by
  rw [purge_eq]
  split
  · rename_i h
    have : t = [] := List.length_eq_zero.mp h
    subst this
    simp
  · simp [List.flatMap_append, GLCall.deleted]

/-- C24. For every vector `t` of `n` records, `TextureManager::purge(t)` leaves `t`
empty and, when `n > 0`, passes to `glDeleteTextures` the count `n` and exactly the
ids `t[0].id .. t[n-1].id` in order: the in-place loop leaves in word `i` the id of
record `i`. The destructor purges the recycled list and then the active list, so
the names it deletes are those of the recycled list followed by those of the active
list, both lists end empty, and when no name is held twice every held handle is
deleted exactly once. -/
theorem purge_deletes_all (tm : TextureManager) (t : List TextureId) :
    (tm.purge t).2 = [] ∧
    (t ≠ [] → (tm.purge t).1.gl =
      tm.gl ++ [GLCall.glDeleteTextures t.length (t.map (fun r => r.id))]) ∧
    (List.range t.length).map (purge_loop t.length (words t)) = t.map (fun r => r.id) ∧
    tm.destroy.recycled = [] ∧ tm.destroy.textures = [] ∧
    tm.destroy.gl.flatMap GLCall.deleted =
      tm.gl.flatMap GLCall.deleted ++
        (tm.recycled.map (fun r => r.id) ++ tm.textures.map (fun r => r.id)) ∧
    (tm.ids.Nodup → ∀ id ∈ tm.ids,
      (tm.recycled.map (fun r => r.id) ++ tm.textures.map (fun r => r.id)).count id = 1) := by
  refine ⟨(purge_deleted tm t).2.1, ?_, purge_loop_ids t, ?_, ?_, ?_, ?_⟩
  · intro hne
    have h : ¬ t.length = 0 := fun h => hne (List.length_eq_zero.mp h)
    rw [purge_eq, if_neg h]
  · unfold TextureManager.destroy
    simp only
    rw [(purge_deleted _ _).2.2.2]
    exact (purge_deleted tm tm.recycled).2.1
  · unfold TextureManager.destroy
    exact (purge_deleted _ _).2.1
  · unfold TextureManager.destroy
    simp only
    have h1 := purge_deleted tm tm.recycled
    have h2 := purge_deleted { (tm.purge tm.recycled).1 with recycled := (tm.purge tm.recycled).2 }
      { (tm.purge tm.recycled).1 with recycled := (tm.purge tm.recycled).2 }.textures
    rw [h2.1]
    simp only
    rw [h1.1, h1.2.2.1, List.append_assoc]
  · intro hn id hid
    have p : (tm.recycled.map (fun r => r.id) ++ tm.textures.map (fun r => r.id)).Perm tm.ids :=
      List.perm_append_comm
    exact List.count_eq_one_of_mem (p.nodup_iff.mpr hn) (p.mem_iff.mpr hid)

/-- Witness for C24: the manager with names 1 and 2 recycled is purged and
destroyed. -/
theorem purge_deletes_all_witness :
    ([⟨1, 4096⟩, ⟨2, 4096⟩] : List TextureId) ≠ [] ∧
    (oneTexture.purge [⟨1, 4096⟩, ⟨2, 4096⟩]).1.gl =
      oneTexture.gl ++ [GLCall.glDeleteTextures 2 [1, 2]] ∧
    oneRecycled.ids.Nodup ∧
    ∀ id ∈ oneRecycled.ids,
      (oneRecycled.recycled.map (fun r => r.id) ++
        oneRecycled.textures.map (fun r => r.id)).count id = 1 :=
  ⟨by decide, (purge_deletes_all oneTexture [⟨1, 4096⟩, ⟨2, 4096⟩]).2.1 (by decide),
    by decide, (purge_deletes_all oneRecycled []).2.2.2.2.2.2 (by decide)⟩

/-! ## Theorems: lyrical label -/

theorem get_interval_le (n : Nat) (attr : Attribute) :
    (get_interval n attr).1 ≤ 4 * n ∧ (get_interval n attr).2 ≤ 4 * n := by
  have hf : (n % 2 ^ 32) * 4 % 2 ^ 32 ≤ 4 * n := by
    have h1 : n % 2 ^ 32 ≤ n := Nat.mod_le _ _
    have h2 : (n % 2 ^ 32) * 4 % 2 ^ 32 ≤ (n % 2 ^ 32) * 4 := Nat.mod_le _ _
    omega
  simp only [get_interval]
  exact ⟨le_trans (min_le_right _ _) hf, le_trans (min_le_right _ _) hf⟩

theorem foldlM_set_some (f : LabelVertex → LabelVertex) :
    ∀ (l : List Nat) (b : List LabelVertex), (∀ i ∈ l, i < b.length) →
      ∃ b2, l.foldlM
        (fun b i =>
          match b[i]? with
          | none => none
          | some v => some (b.set i (f v))) b = some b2 ∧ b2.length = b.length
  | [], b, _ => ⟨b, rfl, rfl⟩
  | i :: l, b, h => by
    have hi : i < b.length := h i (List.mem_cons_self _ _)
    have hl : ∀ j ∈ l, j < (b.set i (f b[i])).length := by
      intro j hj
      rw [List.length_set]
      exact h j (List.mem_cons_of_mem _ hj)
    obtain ⟨b2, h1, h2⟩ := foldlM_set_some f l (b.set i (f b[i])) hl
    refine ⟨b2, ?_, by rw [h2, List.length_set]⟩
    simp only [List.foldlM_cons, List.getElem?_eq_getElem hi, Option.bind_eq_bind,
      Option.some_bind]
    exact h1

theorem for_interval_some (f : LabelVertex → LabelVertex) (b : List LabelVertex) (lo hi : Nat)
    (h : hi ≤ b.length) : ∃ b2, for_interval f b lo hi = some b2 ∧ b2.length = b.length := by
  apply foldlM_set_some
  intro i hi2
  rw [List.mem_range'_1] at hi2
  omega

theorem apply_attribute_some (n : Nat) (b : List LabelVertex) (attr : Attribute)
    (h : b.length = 4 * n) :
    ∃ b2, apply_attribute n b attr = some b2 ∧ b2.length = 4 * n := by
  have hle : (get_interval n attr).2 ≤ b.length := by
    rw [h]
    exact (get_interval_le n attr).2
  unfold apply_attribute
  cases attr.type
  · obtain ⟨b2, h1, h2⟩ := for_interval_some
      (fun v => { v with color := attr.color }) b _ _ hle
    exact ⟨b2, h1, h2.trans h⟩
  · obtain ⟨b2, h1, h2⟩ := for_interval_some
      (fun v => { v with position :=
        ⟨v.position.x + attr.offset.1, v.position.y + attr.offset.2⟩ }) b _ _ hle
    exact ⟨b2, h1, h2.trans h⟩

theorem undo_attribute_some (n : Nat) (c : Nat × Nat × Nat × Nat) (b : List LabelVertex)
    (attr : Attribute) (h : b.length = 4 * n) :
    ∃ b2, undo_attribute n c b attr = some b2 ∧ b2.length = 4 * n := by
  have hle : (get_interval n attr).2 ≤ b.length := by
    rw [h]
    exact (get_interval_le n attr).2
  unfold undo_attribute
  cases attr.type
  · obtain ⟨b2, h1, h2⟩ := for_interval_some (fun v => { v with color := c }) b _ _ hle
    exact ⟨b2, h1, h2.trans h⟩
  · obtain ⟨b2, h1, h2⟩ := for_interval_some
      (fun v => { v with position :=
        ⟨v.position.x - attr.offset.1, v.position.y - attr.offset.2⟩ }) b _ _ hle
    exact ⟨b2, h1, h2.trans h⟩

theorem foldlM_attributes_some (n : Nat) (g : List LabelVertex → Attribute → Option (List LabelVertex))
    (hg : ∀ b attr, b.length = 4 * n → ∃ b2, g b attr = some b2 ∧ b2.length = 4 * n) :
    ∀ (l : List Attribute) (b : List LabelVertex), b.length = 4 * n →
      ∃ b2, l.foldlM g b = some b2 ∧ b2.length = 4 * n
  | [], b, h => ⟨b, rfl, h⟩
  | attr :: l, b, h => by
    obtain ⟨b1, h1, h2⟩ := hg b attr h
    obtain ⟨b2, h3, h4⟩ := foldlM_attributes_some n g hg l b1 h2
    refine ⟨b2, ?_, h4⟩
    simp only [List.foldlM_cons, h1, Option.bind_eq_bind, Option.some_bind]
    exact h3

/-- C26. For every attribute, whatever its start and length (their sum and the
products by 4 wrap around in `unsigned int`), and every label length `n`,
`LyricalLabel::get_interval` returns a pair whose two components are at most `4*n`;
every index the loop `for (i = interval.x; i < interval.y; ++i)` visits is below
`4*n`; and on a vertex buffer of `4*n` vertices the attribute loops of `update()`
and of `undo_from()` never index outside the buffer and leave a buffer of the same
size. -/
theorem attribute_loops_in_bounds (n : Nat) (attr : Attribute) (c : Nat × Nat × Nat × Nat)
    (buffer : List LabelVertex) (attributes : List Attribute) (applied : Nat)
    (hb : buffer.length = 4 * n) :
    (get_interval n attr).1 ≤ 4 * n ∧ (get_interval n attr).2 ≤ 4 * n ∧
    (∀ i ∈ List.range' (get_interval n attr).1
        ((get_interval n attr).2 - (get_interval n attr).1), i < 4 * n) ∧
    (∃ b2, update_attributes n buffer attributes applied = some b2 ∧ b2.length = 4 * n) ∧
    (∃ b2, undo_attributes n c buffer attributes applied = some b2 ∧ b2.length = 4 * n) := by
  have h := get_interval_le n attr
  refine ⟨h.1, h.2, ?_, ?_, ?_⟩
  · intro i hi
    rw [List.mem_range'_1] at hi
    omega
  · exact foldlM_attributes_some n _ (fun b a hl => apply_attribute_some n b a hl) _ buffer hb
  · exact foldlM_attributes_some n _ (fun b a hl => undo_attribute_some n c b a hl) _ buffer hb

/-- Witness for C26: a label of two characters with an attribute whose `start +
length` wraps around and one that reaches past the end of the label. -/
theorem attribute_loops_in_bounds_witness :
    (blankBuffer 8).length = 4 * 2 ∧
    get_interval 2 ⟨.Color, 4294967295, 2, (255, 0, 0, 255), (0, 0)⟩ = (8, 4) ∧
    get_interval 2 ⟨.Offset, 1, 100, (0, 0, 0, 0), (3, -4)⟩ = (4, 8) ∧
    ∃ b2, update_attributes 2 (blankBuffer 8)
        [⟨.Color, 4294967295, 2, (255, 0, 0, 255), (0, 0)⟩,
         ⟨.Offset, 1, 100, (0, 0, 0, 0), (3, -4)⟩] 0 = some b2 ∧ b2.length = 4 * 2 :=
  ⟨by decide, by decide, by decide,
    (attribute_loops_in_bounds 2 ⟨.Color, 4294967295, 2, (255, 0, 0, 255), (0, 0)⟩ (0, 0, 0, 0)
      (blankBuffer 8) _ 0 (by decide)).2.2.2.1⟩

end Rainbow
